import Mathlib

/-!
# Quantum book store

A shallow embedding of `src/main.cpp`: the `Book` hierarchy (`PaperBook`,
`EBook`, `DemoBook`) and the `Store` that holds the books, with its three
operations `add`, `purgeOld` and `buy`.

Conventions of the embedding.

* The source holds `Book *` in a `vector`; here a book is a value and the
  vector is a `List Book`.  A mutation through the pointer (`deliver` lowering
  the stock) becomes the replacement of the list entry at the same position.
* `int` is 32 bits wide.  Values are carried as `Int`; the two subtractions of
  the source (`stock - qty`, `currentYear - year`) are reduced into the `int`
  range by `wrapInt`, the two's complement result of the machine subtraction.
  (C++ leaves signed overflow undefined; the wrap-around is what the usual
  targets compute.  Whatever is computed, an `int` cannot hold a value outside
  its range.)  Comparisons and the conversion of `qty` to `double` do not
  overflow.
* `double` is IEEE 754 binary64, the type `Double` below: finite values with
  their sign, the two infinities and NaN.  `price * qty` converts `qty` to
  `double` (exactly) and multiplies with rounding to the nearest double, ties
  to even; `Double.value` gives the exact rational value of a finite double.
* A thrown `runtime_error` is `Except.error` with the text of `what()`.  Every
  operation returns an `Outcome`: what the call returned or threw, the store
  after the call (also after a throw), and the lines written to `cout`.
-/

namespace Bookstore

/-- Two's complement reduction of an integer into the range of a 32 bit `int`. -/
def wrapInt (x : Int) : Int :=
  (x + 2147483648) % 4294967296 - 2147483648

/-- Membership of the range of a 32 bit `int`. -/
def inIntRange (x : Int) : Prop :=
  -2147483648 ≤ x ∧ x ≤ 2147483647

instance (x : Int) : Decidable (inIntRange x) := by
  unfold inIntRange; infer_instance

/-- The type `double` of the source, IEEE 754 binary64: a finite value
`(-1)^neg * m * 2^e`, an infinity with its sign, or NaN.  A finite double is
kept with `m` odd, or with `m = 0` and `e = 0` for a zero (whose sign is kept),
so that equal values are equal terms; it has `m < 2^53`, `-1074 ≤ e` and a
value below `2^1024`. -/
inductive Double where
  | finite (neg : Bool) (m : Nat) (e : Int)
  | inf (neg : Bool)
  | nan
  deriving DecidableEq

namespace Double

/-- Number of binary digits of `m`, counted by halving at most `fuel` times. -/
def bitsAux : Nat → Nat → Nat
  | 0, _ => 0
  | fuel + 1, m => if m = 0 then 0 else bitsAux fuel (m / 2) + 1

/-- Number of binary digits of `m`: 0 for 0, and `k` when `2^(k-1) ≤ m < 2^k`. -/
def bitLength (m : Nat) : Nat := bitsAux m m

/-- The finite double of value `(-1)^neg * m * 2^e` in its stored form: the
powers of two are moved from `m` into the exponent. -/
def canon (neg : Bool) (m : Nat) (e : Int) : Double :=
  if m = 0 then finite neg 0 0
  else finite neg (m / Nat.gcd m (2 ^ bitLength m))
    (e + ((bitLength (Nat.gcd m (2 ^ bitLength m)) - 1 : Nat) : Int))

/-- Rounding of the exact value `(-1)^neg * m * 2^e` to binary64, to nearest
with ties to even.  `drop` low bits of `m` do not fit: those beyond 53
significant bits and those below `2^(-1074)`; the kept part `q` goes up by one
when the dropped part is more than half a unit, or exactly half with `q` odd.
A result of `2^1024` or more is the infinity of that sign. -/
def round (neg : Bool) (m : Nat) (e : Int) : Double :=
  if m = 0 then finite neg 0 0
  else
    let drop : Nat := max (bitLength m - 53) (-1074 - e).toNat
    let q := m / 2 ^ drop
    let r := m % 2 ^ drop
    let q' := if 2 * r > 2 ^ drop ∨ (2 * r = 2 ^ drop ∧ q % 2 = 1) then q + 1 else q
    if q' ≠ 0 ∧ (bitLength q' : Int) + (e + drop) > 1024 then inf neg
    else canon neg q' (e + drop)

/-- The conversion of an `int` to `double`; it is exact below `2^53`. -/
def ofInt (i : Int) : Double := round (decide (i < 0)) i.natAbs 0

/-- The product of two doubles: NaN when a factor is NaN or when zero meets an
infinity; otherwise the sign is the product of the signs, and the value is the
infinity or the rounded exact product. -/
def mul : Double → Double → Double
  | finite n1 m1 e1, finite n2 m2 e2 => round (xor n1 n2) (m1 * m2) (e1 + e2)
  | finite n1 m1 _, inf n2 => if m1 = 0 then nan else inf (xor n1 n2)
  | inf n1, finite n2 m2 _ => if m2 = 0 then nan else inf (xor n1 n2)
  | inf n1, inf n2 => inf (xor n1 n2)
  | nan, _ => nan
  | _, nan => nan

/-- Unary minus: the sign is flipped. -/
def neg : Double → Double
  | finite n m e => finite (!n) m e
  | inf n => inf (!n)
  | nan => nan

instance : Mul Double := ⟨mul⟩

instance : Neg Double := ⟨neg⟩

instance (n : Nat) : OfNat Double n := ⟨ofInt n⟩

/-- The exact value of a finite double; none for the infinities and NaN. -/
def value : Double → Option ℚ
  | finite neg m e => some ((if neg then -1 else 1) * (m : ℚ) * (2 : ℚ) ^ e)
  | inf _ => none
  | nan => none

/-- The double is neither an infinity nor NaN. -/
def isFinite : Double → Bool
  | finite _ _ _ => true
  | inf _ => false
  | nan => false

/-- The comparison `x >= 0.0`: false for NaN, true for both zeros. -/
def isNonneg : Double → Bool
  | finite neg m _ => !neg || m == 0
  | inf neg => !neg
  | nan => false

/-- The comparison `x <= 0.0`: false for NaN, true for both zeros. -/
def isNonpos : Double → Bool
  | finite neg m _ => neg || m == 0
  | inf neg => neg
  | nan => false

/-- The comparison `x < 0.0`: false for NaN and for both zeros. -/
def isNegative : Double → Bool
  | finite neg m _ => neg && m != 0
  | inf neg => neg
  | nan => false

/-- The double written `0.1`: `3602879701896397 * 2^(-55)`. -/
def oneTenth : Double := finite false 3602879701896397 (-55)

/-- The double written `19.99`: `5626684784446013 * 2^(-48)`. -/
def nineteen99 : Double := finite false 5626684784446013 (-48)

/-- The double written `1e308`: `156575653125701 * 2^976`. -/
def tenTo308 : Double := finite false 156575653125701 976

end Double

/-- The three concrete classes derived from `Book`, each with the arguments of
its public constructor.  `DemoBook` takes no price: its constructor passes
`0.0` to the base class. -/
inductive Book where
  | PaperBook (isbn title author : String) (year : Int) (price : Double) (stock : Int)
  | EBook (isbn title author : String) (year : Int) (price : Double) (format : String)
  | DemoBook (isbn title author : String) (year : Int)
  deriving DecidableEq

namespace Book

/-- `Book::getISBN`. -/
def getISBN : Book → String
  | PaperBook isbn _ _ _ _ _ => isbn
  | EBook isbn _ _ _ _ _ => isbn
  | DemoBook isbn _ _ _ => isbn

/-- The `title` field of the base class. -/
def getTitle : Book → String
  | PaperBook _ title _ _ _ _ => title
  | EBook _ title _ _ _ _ => title
  | DemoBook _ title _ _ => title

/-- The `author` field of the base class. -/
def getAuthor : Book → String
  | PaperBook _ _ author _ _ _ => author
  | EBook _ _ author _ _ _ => author
  | DemoBook _ _ author _ => author

/-- `Book::getYear`. -/
def getYear : Book → Int
  | PaperBook _ _ _ year _ _ => year
  | EBook _ _ _ year _ _ => year
  | DemoBook _ _ _ year => year

/-- `Book::getPrice`; a `DemoBook` was constructed with price `0.0`. -/
def getPrice : Book → Double
  | PaperBook _ _ _ _ price _ => price
  | EBook _ _ _ _ price _ => price
  | DemoBook _ _ _ _ => 0

/-- The overrides of `Book::available`. -/
def available : Book → Int → Bool
  | PaperBook _ _ _ _ _ stock, qty => decide (stock ≥ qty)
  | EBook _ _ _ _ _ _, _ => true
  | DemoBook _ _ _ _, _ => false

/-- The overrides of `Book::deliver`: either the thrown message, or the book
after the call together with the line written to `cout`. -/
def deliver : Book → String → String → Int → Except String (Book × String)
  | PaperBook isbn title author year price stock, _, addr, qty =>
    if stock < qty then
      Except.error ("Out of stock: " ++ title)
    else
      Except.ok (PaperBook isbn title author year price (wrapInt (stock - qty)),
        "Quantum book store: Shipped '" ++ title ++ "' to " ++ addr)
  | EBook isbn title author year price format, email, _, _ =>
    Except.ok (EBook isbn title author year price format,
      "Quantum book store: Emailed '" ++ title ++ "' (" ++ format ++ ") to " ++ email)
  | DemoBook _ title _ _, _, _, _ =>
    Except.error ("Demo book '" ++ title ++ "' not for sale")

end Book

/-- The class `Store`: the vector `books`. -/
structure Store where
  books : List Book
  deriving DecidableEq

/-- What a call on a store leaves behind: the value returned or the message
thrown, the store after the call, and the lines written to `cout`. -/
structure Outcome (α : Type) where
  result : Except String α
  store : Store
  out : List String

namespace Store

/-- The store a freshly constructed `Store` object is. -/
def empty : Store := ⟨[]⟩

/-- The scan of `Store::add`: is there a held book with the ISBN of `book`? -/
def hasISBN : List Book → String → Bool
  | [], _ => false
  | b :: rest, isbn => if b.getISBN = isbn then true else hasISBN rest isbn

/-- `Store::add`. -/
def add (s : Store) (book : Book) : Outcome Unit :=
  if hasISBN s.books book.getISBN then
    ⟨Except.error "Book already exists", s, []⟩
  else
    ⟨Except.ok (), ⟨s.books ++ [book]⟩, []⟩

/-- The loop of `Store::purgeOld`: the ISBNs pushed to `removed` and the books
pushed to `newBooks`, both in scan order. -/
def purgeLoop (currentYear ageLimit : Int) : List Book → List String × List Book
  | [] => ([], [])
  | b :: rest =>
    let r := purgeLoop currentYear ageLimit rest
    if wrapInt (currentYear - b.getYear) > ageLimit then
      (b.getISBN :: r.1, r.2)
    else
      (r.1, b :: r.2)

/-- `Store::purgeOld`; it never throws. -/
def purgeOld (s : Store) (currentYear ageLimit : Int) : Outcome (List String) :=
  let r := purgeLoop currentYear ageLimit s.books
  ⟨Except.ok r.1, ⟨r.2⟩, []⟩

/-- The search loop of `Store::buy`: position and value of the first book with
the given ISBN, `none` when `found` stays `NULL`. -/
def find : List Book → String → Option (Nat × Book)
  | [], _ => none
  | b :: rest, isbn =>
    if b.getISBN = isbn then some (0, b)
    else (find rest isbn).map (fun p => (p.1 + 1, p.2))

/-- `Store::buy`. -/
def buy (s : Store) (isbn : String) (qty : Int) (email addr : String) : Outcome Double :=
  match find s.books isbn with
  | none => ⟨Except.error "Book unavailable for purchase", s, []⟩
  | some (i, found) =>
    if !found.available qty then
      ⟨Except.error "Book unavailable for purchase", s, []⟩
    else
      match found.deliver email addr qty with
      | Except.error e => ⟨Except.error e, s, []⟩
      | Except.ok (found', line) =>
        ⟨Except.ok (found'.getPrice * Double.ofInt qty), ⟨s.books.set i found'⟩, [line]⟩

/-- No two held books have the same ISBN. -/
def UniqueISBN (s : Store) : Prop :=
  s.books.Pairwise (fun a b => a.getISBN ≠ b.getISBN)

instance (s : Store) : Decidable (UniqueISBN s) := by
  unfold UniqueISBN; infer_instance

/-- The stores a program can bring a `Store` object into: the empty store, and
the store left by any call of `add`, `buy` or `purgeOld`, whether the call
returned or threw. -/
inductive Reachable : Store → Prop
  | init : Reachable empty
  | afterAdd (s : Store) (book : Book) : Reachable s → Reachable (s.add book).store
  | afterBuy (s : Store) (isbn : String) (qty : Int) (email addr : String) :
      Reachable s → Reachable (s.buy isbn qty email addr).store
  | afterPurgeOld (s : Store) (currentYear ageLimit : Int) :
      Reachable s → Reachable (s.purgeOld currentYear ageLimit).store

end Store

/-- The catalog built by `QuantumBookstoreFullTest::runTests`. -/
def testStore : Store :=
  ⟨[Book.PaperBook "111" "Effective C++" "Scott Meyers" 2018 45 3,
    Book.EBook "222" "Deep Learning" "Ian Goodfellow" 2016 35 "epub",
    Book.DemoBook "333" "Ancient Manuscript" "Unknown" 1800]⟩

/-- The catalog of `runTests` after its first purchase, two copies of "111". -/
def testStoreAfterBuy : Store :=
  ⟨[Book.PaperBook "111" "Effective C++" "Scott Meyers" 2018 45 1,
    Book.EBook "222" "Deep Learning" "Ian Goodfellow" 2016 35 "epub",
    Book.DemoBook "333" "Ancient Manuscript" "Unknown" 1800]⟩

/-- The stores a program can bring a `Store` object into when every book it
hands to `add` satisfies `ok`. -/
inductive Store.ReachableBy (ok : Book → Prop) : Store → Prop
  | init : Store.ReachableBy ok Store.empty
  | afterAdd (s : Store) (book : Book) :
      ok book → Store.ReachableBy ok s → Store.ReachableBy ok (s.add book).store
  | afterBuy (s : Store) (isbn : String) (qty : Int) (email addr : String) :
      Store.ReachableBy ok s → Store.ReachableBy ok (s.buy isbn qty email addr).store
  | afterPurgeOld (s : Store) (currentYear ageLimit : Int) :
      Store.ReachableBy ok s → Store.ReachableBy ok (s.purgeOld currentYear ageLimit).store

/-- The stock of a paper book is not negative; the other books have no stock. -/
def Book.stockNonneg : Book → Prop
  | Book.PaperBook _ _ _ _ _ stock => 0 ≤ stock
  | Book.EBook _ _ _ _ _ _ => True
  | Book.DemoBook _ _ _ _ => True

instance (b : Book) : Decidable b.stockNonneg := by
  cases b <;> unfold Book.stockNonneg <;> infer_instance

/-! ## Facts about the arithmetic of `double` -/

namespace Double

theorem bitsAux_le (fuel m k : Nat) (h : m < 2 ^ k) : bitsAux fuel m ≤ k := by
  induction fuel generalizing m k with
  | zero => simp [bitsAux]
  | succ fuel ih =>
    unfold bitsAux
    split
    · omega
    · rename_i hm
      cases k with
      | zero => simp at h; omega
      | succ k =>
        have h2 : m / 2 < 2 ^ k := by
          rw [Nat.pow_succ] at h
          omega
        have := ih (m / 2) k h2
        omega

theorem bitLength_le (m k : Nat) (h : m < 2 ^ k) : bitLength m ≤ k :=
  bitsAux_le m m k h

theorem bitsAux_two_pow (t fuel : Nat) (h : t < fuel) : bitsAux fuel (2 ^ t) = t + 1 := by
  induction t generalizing fuel with
  | zero =>
    cases fuel with
    | zero => omega
    | succ fuel => cases fuel <;> simp [bitsAux]
  | succ t ih =>
    cases fuel with
    | zero => omega
    | succ fuel =>
      have hne : (2 : Nat) ^ (t + 1) ≠ 0 := by positivity
      have hhalf : (2 : Nat) ^ (t + 1) / 2 = 2 ^ t := by
        rw [Nat.pow_succ]; omega
      simp only [bitsAux, hne, if_false, hhalf]
      rw [ih fuel (by omega)]

theorem bitLength_two_pow (t : Nat) : bitLength (2 ^ t) = t + 1 :=
  bitsAux_two_pow t (2 ^ t) (Nat.lt_two_pow t)

theorem canon_spec (neg : Bool) (m : Nat) (e : Int) (hm : m ≠ 0) :
    ∃ t : Nat, 2 ^ t ∣ m ∧ m / 2 ^ t ≠ 0 ∧
      canon neg m e = finite neg (m / 2 ^ t) (e + (t : Int)) := by
  obtain ⟨t, -, ht⟩ := (Nat.dvd_prime_pow Nat.prime_two).1
    (Nat.gcd_dvd_right m (2 ^ bitLength m))
  have hdvd : 2 ^ t ∣ m := ht ▸ Nat.gcd_dvd_left m (2 ^ bitLength m)
  refine ⟨t, hdvd, ?_, ?_⟩
  · have hpos : 0 < 2 ^ t := by positivity
    have := Nat.div_pos (Nat.le_of_dvd (Nat.pos_of_ne_zero hm) hdvd) hpos
    omega
  · simp only [canon, hm, if_false, ht, bitLength_two_pow]
    simp

theorem value_canon (neg : Bool) (m : Nat) (e : Int) :
    (canon neg m e).value = some ((if neg then -1 else 1) * (m : ℚ) * (2 : ℚ) ^ e) := by
  by_cases hm : m = 0
  · simp [canon, hm, value]
  · obtain ⟨t, hdvd, -, hc⟩ := canon_spec neg m e hm
    rw [hc]
    simp only [value, Option.some.injEq]
    have h2 : ((2 ^ t : Nat) : ℚ) ≠ 0 := by positivity
    rw [Nat.cast_div hdvd h2, zpow_add₀ (by norm_num : (2 : ℚ) ≠ 0)]
    push_cast
    field_simp
    split <;> ring

theorem round_exact (neg : Bool) (m : Nat) (e : Int) (hm : m < 2 ^ 53)
    (hlo : -1074 ≤ e) (hhi : e ≤ 971) : round neg m e = canon neg m e := by
  by_cases h0 : m = 0
  · simp [round, canon, h0]
  · have hb : bitLength m ≤ 53 := bitLength_le m 53 hm
    have hdrop : max (bitLength m - 53) (-1074 - e).toNat = 0 := by
      have h1 : bitLength m - 53 = 0 := by omega
      have h2 : (-1074 - e).toNat = 0 := by omega
      rw [h1, h2]; rfl
    simp only [round, h0, if_false, hdrop]
    simp only [pow_zero, Nat.div_one, Nat.mod_one, Nat.cast_zero, add_zero]
    have hno : ¬ (2 * 0 > 1 ∨ (2 * 0 = 1 ∧ m % 2 = 1)) := by omega
    simp only [hno, if_false]
    have hov : ¬ (m ≠ 0 ∧ (bitLength m : Int) + e > 1024) := by omega
    simp only [hov, if_false]

theorem ofInt_eq_canon (i : Int) (h : i.natAbs < 2 ^ 53) :
    ofInt i = canon (decide (i < 0)) i.natAbs 0 :=
  round_exact _ _ 0 h (by omega) (by omega)

theorem sign_mul_natAbs (i : Int) :
    (if decide (i < 0) = true then (-1 : ℚ) else 1) * (i.natAbs : ℚ) = (i : ℚ) := by
  by_cases hi : i < 0
  · have h : ((i.natAbs : Int) : ℚ) = ((-i : Int) : ℚ) := by
      congr 1; omega
    simp only [hi, decide_True, if_true]
    rw [show (i.natAbs : ℚ) = ((i.natAbs : Int) : ℚ) from (Int.cast_natCast _).symm, h]
    push_cast; ring
  · have h : ((i.natAbs : Int) : ℚ) = ((i : Int) : ℚ) := by
      congr 1; omega
    simp only [hi, decide_False, if_false, Bool.false_eq_true]
    rw [show (i.natAbs : ℚ) = ((i.natAbs : Int) : ℚ) from (Int.cast_natCast _).symm, h]
    ring

theorem value_ofInt (i : Int) (h : i.natAbs < 2 ^ 53) : (ofInt i).value = some (i : ℚ) := by
  rw [ofInt_eq_canon i h, value_canon]
  simp only [zpow_zero, mul_one, Option.some.injEq]
  exact sign_mul_natAbs i

theorem mul_finite (n1 n2 : Bool) (m1 m2 : Nat) (e1 e2 : Int) :
    finite n1 m1 e1 * finite n2 m2 e2 = round (xor n1 n2) (m1 * m2) (e1 + e2) := rfl

theorem round_zero (neg : Bool) (e : Int) : round neg 0 e = finite neg 0 0 := by
  simp [round]

theorem canon_sign (neg : Bool) (m : Nat) (e : Int) :
    ∃ m' e', canon neg m e = finite neg m' e' := by
  unfold canon
  split
  · exact ⟨_, _, rfl⟩
  · exact ⟨_, _, rfl⟩

theorem round_sign (neg : Bool) (m : Nat) (e : Int) :
    round neg m e = inf neg ∨ ∃ m' e', round neg m e = finite neg m' e' := by
  simp only [round]
  split_ifs
  · exact Or.inr ⟨_, _, rfl⟩
  · exact Or.inl rfl
  · exact Or.inr (canon_sign _ _ _)
  · exact Or.inl rfl
  · exact Or.inr (canon_sign _ _ _)

theorem sign_xor (a b : Bool) :
    (if xor a b = true then (-1 : ℚ) else 1) =
      (if a = true then (-1 : ℚ) else 1) * (if b = true then (-1 : ℚ) else 1) := by
  cases a <;> cases b <;> simp

theorem value_mul_ofInt (neg : Bool) (m : Nat) (e : Int) (i : Int)
    (hi : i.natAbs < 2 ^ 53) (hlo : -1074 ≤ e) (hhi : e ≤ 900)
    (hm : m * i.natAbs < 2 ^ 53) :
    (finite neg m e * ofInt i).value =
      some ((if neg then -1 else 1) * (m : ℚ) * (2 : ℚ) ^ e * (i : ℚ)) := by
  rw [ofInt_eq_canon i hi]
  by_cases h0 : i.natAbs = 0
  · have hi0 : i = 0 := Int.natAbs_eq_zero.mp h0
    subst hi0
    simp [canon, mul_finite, round_zero, value]
  · obtain ⟨t, hdvd, -, hc⟩ := canon_spec (decide (i < 0)) i.natAbs 0 h0
    rw [hc, mul_finite]
    have hle : i.natAbs / 2 ^ t ≤ i.natAbs := Nat.div_le_self _ _
    have hM : m * (i.natAbs / 2 ^ t) < 2 ^ 53 :=
      Nat.lt_of_le_of_lt (Nat.mul_le_mul_left m hle) hm
    have ht : t < 53 := by
      by_contra hge
      have h1 : 2 ^ 53 ≤ 2 ^ t := Nat.pow_le_pow_right (by norm_num) (by omega)
      have h2 : 2 ^ t ≤ i.natAbs := Nat.le_of_dvd (Nat.pos_of_ne_zero h0) hdvd
      omega
    rw [round_exact _ _ _ hM (by omega) (by omega), value_canon]
    simp only [Option.some.injEq]
    have h2 : ((2 ^ t : Nat) : ℚ) ≠ 0 := by positivity
    rw [sign_xor, Nat.cast_mul, Nat.cast_div hdvd h2, zpow_add₀ (by norm_num : (2 : ℚ) ≠ 0),
      zpow_add₀ (by norm_num : (2 : ℚ) ≠ 0), ← sign_mul_natAbs i]
    push_cast
    field_simp
    ring_nf

theorem value_mul_ofInt_map (neg : Bool) (m : Nat) (e : Int) (i : Int)
    (hi : inIntRange i) (hlo : -1074 ≤ e) (hhi : e ≤ 900) (hm : m * i.natAbs < 2 ^ 53) :
    (finite neg m e * ofInt i).value = (finite neg m e).value.map (fun v => v * (i : ℚ)) := by
  have hr : i.natAbs < 2 ^ 53 := by
    unfold inIntRange at hi
    omega
  rw [value_mul_ofInt neg m e i hr hlo hhi hm]
  rfl

theorem isNonpos_mul_ofInt (p : Double) (i : Int) (hfin : p.isFinite = true)
    (hnn : p.isNonneg = true) (hi : i ≤ 0) (hr : i.natAbs < 2 ^ 53) :
    (p * ofInt i).isNonpos = true := by
  cases p with
  | inf neg => simp [isFinite] at hfin
  | nan => simp [isFinite] at hfin
  | finite neg m e =>
    rw [ofInt_eq_canon i hr]
    by_cases h0 : i.natAbs = 0
    · simp [canon, h0, mul_finite, round_zero, isNonpos]
    · obtain ⟨t, -, -, hc⟩ := canon_spec (decide (i < 0)) i.natAbs 0 h0
      rw [hc, mul_finite]
      by_cases hm : m = 0
      · simp [hm, round_zero, isNonpos]
      · have hneg : neg = false := by
          simp only [isNonneg, Bool.or_eq_true, Bool.not_eq_true', beq_iff_eq] at hnn
          rcases hnn with h | h
          · exact h
          · exact absurd h hm
        have hlt : i < 0 := by omega
        have hx : xor neg (decide (i < 0)) = true := by simp [hneg, hlt]
        rw [hx]
        rcases round_sign true (m * (i.natAbs / 2 ^ t)) (e + (0 + (t : Int))) with h | ⟨m', e', h⟩
        · rw [h]; rfl
        · rw [h]; rfl

end Double

/-! ## Auxiliary facts about the scans -/

theorem Store.hasISBN_iff (l : List Book) (isbn : String) :
    Store.hasISBN l isbn = true ↔ ∃ b ∈ l, b.getISBN = isbn := by
  induction l with
  | nil => simp [Store.hasISBN]
  | cons b rest ih =>
    by_cases hb : b.getISBN = isbn
    · simp [Store.hasISBN, hb]
    · simp [Store.hasISBN, hb, ih]

theorem Store.find_eq_none_iff (l : List Book) (isbn : String) :
    Store.find l isbn = none ↔ ∀ b ∈ l, b.getISBN ≠ isbn := by
  induction l with
  | nil => simp [Store.find]
  | cons b rest ih =>
    by_cases hb : b.getISBN = isbn
    · simp [Store.find, hb]
    · simp [Store.find, hb, ih]

theorem Store.find_some_spec (l : List Book) (isbn : String) (i : Nat) (b : Book)
    (h : Store.find l isbn = some (i, b)) :
    l[i]? = some b ∧ b.getISBN = isbn ∧ ∀ j, j < i → ∀ c, l[j]? = some c → c.getISBN ≠ isbn := by
  induction l generalizing i with
  | nil => simp [Store.find] at h
  | cons a rest ih =>
    by_cases ha : a.getISBN = isbn
    · simp [Store.find, ha] at h
      obtain ⟨rfl, rfl⟩ := h
      simp [ha]
    · simp [Store.find, ha] at h
      obtain ⟨i', hfind, rfl⟩ := h
      obtain ⟨h1, h2, h3⟩ := ih i' hfind
      refine ⟨by simpa using h1, h2, ?_⟩
      intro j hj c hc
      cases j with
      | zero =>
        simp at hc
        subst hc
        exact ha
      | succ j =>
        simp at hc
        exact h3 j (by omega) c hc

theorem Store.find_of_unique (l : List Book) (b : Book)
    (hu : l.Pairwise (fun a c => a.getISBN ≠ c.getISBN)) (hb : b ∈ l) :
    ∃ i, Store.find l b.getISBN = some (i, b) ∧ l[i]? = some b := by
  induction l with
  | nil => simp at hb
  | cons a rest ih =>
    rw [List.pairwise_cons] at hu
    rcases List.mem_cons.mp hb with rfl | hmem
    · exact ⟨0, by simp [Store.find], by simp⟩
    · have hne : a.getISBN ≠ b.getISBN := hu.1 b hmem
      obtain ⟨i, hi, hget⟩ := ih hu.2 hmem
      exact ⟨i + 1, by simp [Store.find, hne, hi], by simpa using hget⟩

theorem Book.deliver_getISBN (b b' : Book) (email addr line : String) (qty : Int)
    (h : b.deliver email addr qty = Except.ok (b', line)) : b'.getISBN = b.getISBN := by
  cases b with
  | PaperBook isbn title author year price stock =>
    simp only [Book.deliver] at h
    split at h
    · cases h
    · cases h; rfl
  | EBook isbn title author year price format =>
    simp only [Book.deliver] at h
    cases h; rfl
  | DemoBook isbn title author year =>
    simp only [Book.deliver] at h
    cases h

theorem Store.map_getISBN_set (l : List Book) (i : Nat) (b b' : Book)
    (hget : l[i]? = some b) (hk : b'.getISBN = b.getISBN) :
    (l.set i b').map Book.getISBN = l.map Book.getISBN := by
  induction l generalizing i with
  | nil => simp
  | cons a rest ih =>
    cases i with
    | zero =>
      simp at hget
      subst hget
      simp [hk]
    | succ i =>
      simp at hget
      simp [ih i hget]

theorem Store.purgeLoop_eq (currentYear ageLimit : Int) (l : List Book) :
    Store.purgeLoop currentYear ageLimit l =
      ((l.filter (fun b => decide (wrapInt (currentYear - b.getYear) > ageLimit))).map
          Book.getISBN,
        l.filter (fun b => decide (wrapInt (currentYear - b.getYear) ≤ ageLimit))) := by
  induction l with
  | nil => simp [Store.purgeLoop]
  | cons b rest ih =>
    by_cases hb : wrapInt (currentYear - b.getYear) > ageLimit
    · have hb' : ¬ wrapInt (currentYear - b.getYear) ≤ ageLimit := by omega
      simp [Store.purgeLoop, ih, hb, hb']
    · have hb' : wrapInt (currentYear - b.getYear) ≤ ageLimit := by omega
      simp [Store.purgeLoop, ih, hb, hb']

theorem Store.uniqueISBN_iff_nodup (s : Store) :
    s.UniqueISBN ↔ (s.books.map Book.getISBN).Nodup := by
  unfold Store.UniqueISBN List.Nodup
  rw [List.pairwise_map]

theorem Store.add_uniqueISBN (s : Store) (book : Book) (h : s.UniqueISBN) :
    (s.add book).store.UniqueISBN := by
  unfold Store.add
  split
  · exact h
  · rename_i hno
    have hno' : ∀ b ∈ s.books, b.getISBN ≠ book.getISBN := by
      intro b hb heq
      exact hno ((Store.hasISBN_iff s.books book.getISBN).mpr ⟨b, hb, heq⟩)
    unfold Store.UniqueISBN
    simp only
    rw [List.pairwise_append]
    refine ⟨h, by simp, ?_⟩
    intro a ha c hc
    simp at hc
    subst hc
    exact hno' a ha

theorem Store.buy_map_getISBN (s : Store) (isbn : String) (qty : Int) (email addr : String) :
    (s.buy isbn qty email addr).store.books.map Book.getISBN = s.books.map Book.getISBN := by
  unfold Store.buy
  split
  · rfl
  · rename_i i found hfind
    split
    · rfl
    · split
      · rfl
      · rename_i found' line hdel
        obtain ⟨hget, -, -⟩ := Store.find_some_spec s.books isbn i found hfind
        exact Store.map_getISBN_set s.books i found found' hget
          (Book.deliver_getISBN found found' email addr line qty hdel)

theorem Store.buy_uniqueISBN (s : Store) (isbn : String) (qty : Int) (email addr : String)
    (h : s.UniqueISBN) : (s.buy isbn qty email addr).store.UniqueISBN := by
  rw [Store.uniqueISBN_iff_nodup] at h ⊢
  rw [Store.buy_map_getISBN]
  exact h

theorem Store.purgeOld_uniqueISBN (s : Store) (currentYear ageLimit : Int)
    (h : s.UniqueISBN) : (s.purgeOld currentYear ageLimit).store.UniqueISBN := by
  unfold Store.purgeOld Store.UniqueISBN
  simp only [Store.purgeLoop_eq]
  exact List.Pairwise.sublist (List.filter_sublist _) h

theorem Store.Reachable.uniqueISBN (s : Store) (h : s.Reachable) : s.UniqueISBN := by
  induction h with
  | init => simp [Store.UniqueISBN, Store.empty]
  | afterAdd s book _ ih => exact Store.add_uniqueISBN s book ih
  | afterBuy s isbn qty email addr _ ih => exact Store.buy_uniqueISBN s isbn qty email addr ih
  | afterPurgeOld s currentYear ageLimit _ ih =>
    exact Store.purgeOld_uniqueISBN s currentYear ageLimit ih

theorem Store.countP_of_unique (l : List Book) (b : Book)
    (hu : l.Pairwise (fun a c => a.getISBN ≠ c.getISBN)) (hb : b ∈ l) :
    l.countP (fun c => decide (c.getISBN = b.getISBN)) = 1 := by
  induction l with
  | nil => simp at hb
  | cons a rest ih =>
    rw [List.pairwise_cons] at hu
    rcases List.mem_cons.mp hb with rfl | hmem
    · have hzero : rest.countP (fun c => decide (c.getISBN = b.getISBN)) = 0 := by
        rw [List.countP_eq_zero]
        intro c hc
        simpa using (hu.1 c hc).symm
      simp [List.countP_cons, hzero]
    · have hne : a.getISBN ≠ b.getISBN := hu.1 b hmem
      simp [List.countP_cons, hne, ih hu.2 hmem]

theorem wrapInt_eq_self (x : Int) (h : inIntRange x) : wrapInt x = x := by
  unfold inIntRange at h
  unfold wrapInt
  omega

theorem wrapInt_inIntRange (x : Int) : inIntRange (wrapInt x) := by
  unfold inIntRange wrapInt
  omega

theorem Store.buy_of_find_none (s : Store) (isbn : String) (qty : Int) (email addr : String)
    (hfind : Store.find s.books isbn = none) :
    s.buy isbn qty email addr = ⟨Except.error "Book unavailable for purchase", s, []⟩ := by
  simp [Store.buy, hfind]

theorem Store.buy_of_not_available (s : Store) (isbn : String) (qty : Int)
    (email addr : String) (i : Nat) (found : Book)
    (hfind : Store.find s.books isbn = some (i, found))
    (havail : found.available qty = false) :
    s.buy isbn qty email addr = ⟨Except.error "Book unavailable for purchase", s, []⟩ := by
  simp [Store.buy, hfind, havail]

theorem Store.buy_of_deliver_error (s : Store) (isbn : String) (qty : Int)
    (email addr : String) (i : Nat) (found : Book) (e : String)
    (hfind : Store.find s.books isbn = some (i, found))
    (havail : found.available qty = true)
    (hdel : found.deliver email addr qty = Except.error e) :
    s.buy isbn qty email addr = ⟨Except.error e, s, []⟩ := by
  simp [Store.buy, hfind, havail, hdel]

theorem Store.buy_of_deliver_ok (s : Store) (isbn : String) (qty : Int)
    (email addr : String) (i : Nat) (found found' : Book) (line : String)
    (hfind : Store.find s.books isbn = some (i, found))
    (havail : found.available qty = true)
    (hdel : found.deliver email addr qty = Except.ok (found', line)) :
    s.buy isbn qty email addr =
      ⟨Except.ok (found'.getPrice * Double.ofInt qty), ⟨s.books.set i found'⟩, [line]⟩ := by
  simp [Store.buy, hfind, havail, hdel]

theorem Book.deliver_getPrice (b b' : Book) (email addr line : String) (qty : Int)
    (h : b.deliver email addr qty = Except.ok (b', line)) : b'.getPrice = b.getPrice := by
  cases b with
  | PaperBook isbn title author year price stock =>
    simp only [Book.deliver] at h
    split at h
    · cases h
    · cases h; rfl
  | EBook isbn title author year price format =>
    simp only [Book.deliver] at h
    cases h; rfl
  | DemoBook isbn title author year =>
    simp only [Book.deliver] at h
    cases h

theorem Store.set_same (l : List Book) (i : Nat) (b : Book) (hget : l[i]? = some b) :
    l.set i b = l := by
  induction l generalizing i with
  | nil => simp
  | cons a rest ih =>
    cases i with
    | zero =>
      simp at hget
      subst hget
      simp
    | succ i =>
      simp at hget
      simp [ih i hget]

theorem Store.purgeOld_books (s : Store) (currentYear ageLimit : Int) :
    (s.purgeOld currentYear ageLimit).store.books =
      s.books.filter (fun b => decide (wrapInt (currentYear - b.getYear) ≤ ageLimit)) := by
  simp [Store.purgeOld, Store.purgeLoop_eq]

theorem Store.purgeOld_result (s : Store) (currentYear ageLimit : Int) :
    (s.purgeOld currentYear ageLimit).result =
      Except.ok ((s.books.filter
        (fun b => decide (wrapInt (currentYear - b.getYear) > ageLimit))).map Book.getISBN) := by
  simp [Store.purgeOld, Store.purgeLoop_eq]

theorem Store.filter_length_split (l : List Book) (age : Book → Int) (ageLimit : Int) :
    (l.filter (fun b => decide (age b ≤ ageLimit))).length +
      (l.filter (fun b => decide (age b > ageLimit))).length = l.length := by
  simp only [gt_iff_lt]
  induction l with
  | nil => simp
  | cons b rest ih =>
    by_cases hb : age b ≤ ageLimit
    · have hb' : ¬ ageLimit < age b := by omega
      simp only [List.filter_cons, hb, hb', decide_True, decide_False, if_true,
        Bool.false_eq_true, if_false, List.length_cons]
      omega
    · have hb' : ageLimit < age b := by omega
      simp only [List.filter_cons, hb, hb', decide_True, decide_False, if_true,
        Bool.false_eq_true, if_false, List.length_cons]
      omega

theorem Book.deliver_ok_iff_available (b : Book) (email addr : String) (qty : Int) :
    (∃ r, b.deliver email addr qty = Except.ok r) ↔ b.available qty = true := by
  cases b with
  | PaperBook isbn title author year price stock =>
    by_cases h : stock < qty
    · have h' : ¬ qty ≤ stock := by omega
      simp [Book.deliver, Book.available, h, h']
    · have h' : qty ≤ stock := by omega
      simp [Book.deliver, Book.available, h, h']
  | EBook isbn title author year price format => simp [Book.deliver, Book.available]
  | DemoBook isbn title author year => simp [Book.deliver, Book.available]

/-- The three ways a call of `Store::buy` can end. -/
theorem Store.buy_cases (s : Store) (isbn : String) (qty : Int) (email addr : String) :
    (Store.find s.books isbn = none ∧
      s.buy isbn qty email addr = ⟨Except.error "Book unavailable for purchase", s, []⟩) ∨
    (∃ i found, Store.find s.books isbn = some (i, found) ∧ found.available qty = false ∧
      s.buy isbn qty email addr = ⟨Except.error "Book unavailable for purchase", s, []⟩) ∨
    (∃ i found found' line, Store.find s.books isbn = some (i, found) ∧
      found.available qty = true ∧
      found.deliver email addr qty = Except.ok (found', line) ∧
      s.buy isbn qty email addr =
        ⟨Except.ok (found'.getPrice * Double.ofInt qty), ⟨s.books.set i found'⟩, [line]⟩) := by
  cases hfind : Store.find s.books isbn with
  | none => exact Or.inl ⟨rfl, Store.buy_of_find_none s isbn qty email addr hfind⟩
  | some p =>
    obtain ⟨i, found⟩ := p
    cases havail : found.available qty with
    | false =>
      exact Or.inr (Or.inl ⟨i, found, rfl, havail,
        Store.buy_of_not_available s isbn qty email addr i found hfind havail⟩)
    | true =>
      obtain ⟨r, hdel⟩ := (Book.deliver_ok_iff_available found email addr qty).mpr havail
      obtain ⟨found', line⟩ := r
      exact Or.inr (Or.inr ⟨i, found, found', line, rfl, havail, hdel,
        Store.buy_of_deliver_ok s isbn qty email addr i found found' line hfind havail hdel⟩)

theorem Store.mem_purgeOld_result (s : Store) (currentYear ageLimit : Int) (isbn : String)
    (removed : List String)
    (hres : (s.purgeOld currentYear ageLimit).result = Except.ok removed)
    (hk : isbn ∈ removed) :
    ∃ b ∈ s.books, b.getISBN = isbn ∧ wrapInt (currentYear - b.getYear) > ageLimit := by
  rw [Store.purgeOld_result] at hres
  simp only [Except.ok.injEq] at hres
  subst hres
  obtain ⟨b, hb, hbk⟩ := List.mem_map.mp hk
  rw [List.mem_filter] at hb
  exact ⟨b, hb.1, hbk, by simpa using hb.2⟩

theorem Store.pairwise_same_isbn (l : List Book) (a b : Book)
    (hu : l.Pairwise (fun x y => x.getISBN ≠ y.getISBN)) (ha : a ∈ l) (hb : b ∈ l)
    (hk : a.getISBN = b.getISBN) : a = b := by
  induction l with
  | nil => simp at ha
  | cons c rest ih =>
    rw [List.pairwise_cons] at hu
    rcases List.mem_cons.mp ha with rfl | ha'
    · rcases List.mem_cons.mp hb with rfl | hb'
      · rfl
      · exact absurd hk (hu.1 b hb')
    · rcases List.mem_cons.mp hb with rfl | hb'
      · exact absurd hk.symm (hu.1 a ha')
      · exact ih hu.2 ha' hb'

/-- A property of books that `deliver` establishes for the book it changes is
kept for all books of the store by `Store::buy`. -/
theorem Store.buy_forall (P : Book → Prop) (s : Store) (isbn : String) (qty : Int)
    (email addr : String) (h : ∀ b ∈ s.books, P b)
    (hdel : ∀ i found found' line, Store.find s.books isbn = some (i, found) →
      found.deliver email addr qty = Except.ok (found', line) → P found') :
    ∀ b ∈ (s.buy isbn qty email addr).store.books, P b := by
  rcases Store.buy_cases s isbn qty email addr with ⟨-, hb⟩ | ⟨i, found, -, -, hb⟩ |
      ⟨i, found, found', line, hfind, -, hd, hb⟩
  · rw [hb]; exact h
  · rw [hb]; exact h
  · rw [hb]
    intro b hmem
    rcases List.mem_or_eq_of_mem_set hmem with hold | rfl
    · exact h b hold
    · exact hdel i found b line hfind hd

theorem Store.add_forall (P : Book → Prop) (s : Store) (book : Book)
    (h : ∀ b ∈ s.books, P b) (hbook : P book) : ∀ b ∈ (s.add book).store.books, P b := by
  unfold Store.add
  split
  · exact h
  · intro b hb
    rcases List.mem_append.mp hb with hold | hnew
    · exact h b hold
    · rw [List.mem_singleton.mp hnew]
      exact hbook

theorem Store.purgeOld_forall (P : Book → Prop) (s : Store) (currentYear ageLimit : Int)
    (h : ∀ b ∈ s.books, P b) : ∀ b ∈ (s.purgeOld currentYear ageLimit).store.books, P b := by
  intro b hb
  rw [Store.purgeOld_books] at hb
  exact h b (List.mem_filter.mp hb).1

theorem Book.deliver_paper (isbn title author : String) (year : Int) (price : Double)
    (stock qty : Int) (email addr line : String) (b' : Book)
    (h : (Book.PaperBook isbn title author year price stock).deliver email addr qty =
      Except.ok (b', line)) :
    qty ≤ stock ∧ b' = Book.PaperBook isbn title author year price (wrapInt (stock - qty)) := by
  simp only [Book.deliver] at h
  split at h
  · cases h
  · rename_i hlt
    cases h
    exact ⟨by omega, rfl⟩

theorem Book.outOfStock_ne_unavailable (title : String) :
    "Out of stock: " ++ title ≠ "Book unavailable for purchase" := by
  intro h
  have h2 := congrArg (fun x => x.data.head?) h
  simp [String.data_append] at h2

theorem Book.notForSale_ne_unavailable (title : String) :
    "Demo book '" ++ title ++ "' not for sale" ≠ "Book unavailable for purchase" := by
  intro h
  have h2 := congrArg (fun x => x.data.head?) h
  simp [String.data_append] at h2

/-- What `deliver` leaves of a book when it returns: an e-book as it was, a
paper book with its stock replaced. -/
theorem Book.deliver_frame (b b' : Book) (email addr line : String) (qty : Int)
    (h : b.deliver email addr qty = Except.ok (b', line)) :
    (∃ isbn title author year price stock,
      b = Book.PaperBook isbn title author year price stock ∧
      b' = Book.PaperBook isbn title author year price (wrapInt (stock - qty))) ∨
    (∃ isbn title author year price format,
      b = Book.EBook isbn title author year price format ∧ b' = b) := by
  cases b with
  | PaperBook isbn title author year price stock =>
    exact Or.inl ⟨isbn, title, author, year, price, stock, rfl,
      (Book.deliver_paper isbn title author year price stock qty email addr line b' h).2⟩
  | EBook isbn title author year price format =>
    simp only [Book.deliver] at h
    cases h
    exact Or.inr ⟨isbn, title, author, year, price, format, rfl, rfl⟩
  | DemoBook isbn title author year =>
    simp only [Book.deliver] at h
    cases h

theorem Store.find_append_of_some (l l' : List Book) (isbn : String) (i : Nat) (b : Book)
    (h : Store.find l isbn = some (i, b)) : Store.find (l ++ l') isbn = some (i, b) := by
  induction l generalizing i with
  | nil => simp [Store.find] at h
  | cons a rest ih =>
    by_cases ha : a.getISBN = isbn
    · simpa [Store.find, ha] using h
    · simp [Store.find, ha] at h
      obtain ⟨i', hfind, rfl⟩ := h
      simp [Store.find, ha, ih i' hfind]

theorem Store.find_append_singleton_of_none (l : List Book) (b : Book) (isbn : String)
    (h : Store.find l isbn = none) :
    Store.find (l ++ [b]) isbn = if b.getISBN = isbn then some (l.length, b) else none := by
  induction l with
  | nil => simp [Store.find]
  | cons a rest ih =>
    by_cases ha : a.getISBN = isbn
    · simp [Store.find, ha] at h
    · simp [Store.find, ha] at h
      by_cases hb : b.getISBN = isbn
      · simp [Store.find, ha, ih h, hb]
      · simp [Store.find, ha, ih h, hb]

/-! ## The claims -/

/-- C1: `Store::add` of a book whose ISBN is the ISBN of a held book throws
"Book already exists" and leaves the store exactly as it was; the store, being
reachable, then still holds exactly one book under that ISBN. -/
theorem add_duplicate_rejected (s : Store) (book : Book)
    (hdup : ∃ b ∈ s.books, b.getISBN = book.getISBN) :
    (s.add book).result = Except.error "Book already exists" ∧
    (s.add book).store = s ∧
    (s.Reachable →
      (s.add book).store.books.countP (fun c => decide (c.getISBN = book.getISBN)) = 1) := by
  have hscan : Store.hasISBN s.books book.getISBN = true :=
    (Store.hasISBN_iff s.books book.getISBN).mpr hdup
  have hstore : (s.add book).store = s := by simp [Store.add, hscan]
  refine ⟨by simp [Store.add, hscan], hstore, ?_⟩
  intro hreach
  obtain ⟨b, hb, hk⟩ := hdup
  rw [hstore, ← hk]
  exact Store.countP_of_unique s.books b (Store.Reachable.uniqueISBN s hreach) hb

/-- Witness of C1: a second book with ISBN "111" offered to the store that
holds the test's paper book "111". -/
theorem add_duplicate_rejected_witness :
    (∃ b ∈ (Store.empty.add (Book.PaperBook "111" "Effective C++" "Scott Meyers" 2018 45 3)).store.books,
        b.getISBN = (Book.EBook "111" "Other" "Nobody" 2020 10 "pdf").getISBN) ∧
    ((Store.empty.add (Book.PaperBook "111" "Effective C++" "Scott Meyers" 2018 45 3)).store.add
        (Book.EBook "111" "Other" "Nobody" 2020 10 "pdf")).result =
      Except.error "Book already exists" ∧
    ((Store.empty.add (Book.PaperBook "111" "Effective C++" "Scott Meyers" 2018 45 3)).store.add
        (Book.EBook "111" "Other" "Nobody" 2020 10 "pdf")).store =
      (Store.empty.add (Book.PaperBook "111" "Effective C++" "Scott Meyers" 2018 45 3)).store ∧
    ((Store.empty.add (Book.PaperBook "111" "Effective C++" "Scott Meyers" 2018 45 3)).store.add
        (Book.EBook "111" "Other" "Nobody" 2020 10 "pdf")).store.books.countP
      (fun c => decide (c.getISBN = (Book.EBook "111" "Other" "Nobody" 2020 10 "pdf").getISBN)) = 1 :=
  have hdup : ∃ b ∈ (Store.empty.add
      (Book.PaperBook "111" "Effective C++" "Scott Meyers" 2018 45 3)).store.books,
      b.getISBN = (Book.EBook "111" "Other" "Nobody" 2020 10 "pdf").getISBN :=
    ⟨Book.PaperBook "111" "Effective C++" "Scott Meyers" 2018 45 3, by decide, by decide⟩
  have h := add_duplicate_rejected _ (Book.EBook "111" "Other" "Nobody" 2020 10 "pdf") hdup
  ⟨hdup, h.1, h.2.1, h.2.2 (Store.Reachable.afterAdd _ _ Store.Reachable.init)⟩

/-- C2: `Store::add` of a book whose ISBN no held book has returns normally,
and the store afterwards is the old list of books with the new book appended
at the end: every position of the old list holds the same book as before. -/
theorem add_fresh_appends (s : Store) (book : Book)
    (hfresh : ∀ b ∈ s.books, b.getISBN ≠ book.getISBN) :
    (s.add book).result = Except.ok () ∧
    (s.add book).store.books = s.books ++ [book] ∧
    (∀ i, i < s.books.length → (s.add book).store.books[i]? = s.books[i]?) ∧
    (∀ b ∈ s.books, b ∈ (s.add book).store.books) := by
  have hscan : Store.hasISBN s.books book.getISBN = false := by
    rw [← Bool.not_eq_true, Store.hasISBN_iff]
    rintro ⟨b, hb, hk⟩
    exact hfresh b hb hk
  have hbooks : (s.add book).store.books = s.books ++ [book] := by simp [Store.add, hscan]
  refine ⟨by simp [Store.add, hscan], hbooks, ?_, ?_⟩
  · intro i hi
    rw [hbooks, List.getElem?_append_left hi]
  · intro b hb
    rw [hbooks]
    exact List.mem_append_left _ hb

/-- Witness of C2: the demo book "333" added to the store holding "111". -/
theorem add_fresh_appends_witness :
    (∀ b ∈ (Store.mk [Book.PaperBook "111" "Effective C++" "Scott Meyers" 2018 45 3]).books,
        b.getISBN ≠ (Book.DemoBook "333" "Ancient Manuscript" "Unknown" 1800).getISBN) ∧
    ((Store.mk [Book.PaperBook "111" "Effective C++" "Scott Meyers" 2018 45 3]).add
        (Book.DemoBook "333" "Ancient Manuscript" "Unknown" 1800)).store.books =
      [Book.PaperBook "111" "Effective C++" "Scott Meyers" 2018 45 3,
        Book.DemoBook "333" "Ancient Manuscript" "Unknown" 1800] :=
  have hfresh : ∀ b ∈ (Store.mk [Book.PaperBook "111" "Effective C++" "Scott Meyers" 2018 45 3]).books,
      b.getISBN ≠ (Book.DemoBook "333" "Ancient Manuscript" "Unknown" 1800).getISBN := by
    decide
  ⟨hfresh, (add_fresh_appends _ _ hfresh).2.1⟩

/-- C3: key uniqueness is an invariant of the store: in every store reachable
from the empty one by calls of `add`, `buy` and `purgeOld` (returning or
throwing, with any arguments) no two positions hold books with the same
ISBN. -/
theorem reachable_isbn_unique (s : Store) (h : s.Reachable) :
    s.UniqueISBN ∧
    ∀ (i j : Nat), i ≠ j → ∀ (a b : Book), s.books[i]? = some a → s.books[j]? = some b →
      a.getISBN ≠ b.getISBN := by
  have hu := Store.Reachable.uniqueISBN s h
  refine ⟨hu, ?_⟩
  have key : ∀ (i j : Nat), i < j → ∀ (a b : Book), s.books[i]? = some a →
      s.books[j]? = some b →
      a.getISBN ≠ b.getISBN := by
    intro i j hij a b ha hb
    obtain ⟨hi, rfl⟩ := List.getElem?_eq_some_iff.mp ha
    obtain ⟨hj, rfl⟩ := List.getElem?_eq_some_iff.mp hb
    exact (List.pairwise_iff_getElem.mp hu) i j hi hj hij
  intro i j hij a b ha hb
  rcases Nat.lt_or_gt_of_ne hij with hlt | hgt
  · exact key i j hlt a b ha hb
  · exact (key j i hgt b a hb ha).symm

/-- Witness of C3: the store after a failed purchase in the store holding the
test's paper book. -/
theorem reachable_isbn_unique_witness :
    ((Store.empty.add (Book.PaperBook "111" "Effective C++" "Scott Meyers" 2018 45 3)).store.buy
      "111" 5 "customer@gmail.com" "221B Baker Street").store.Reachable ∧
    ((Store.empty.add (Book.PaperBook "111" "Effective C++" "Scott Meyers" 2018 45 3)).store.buy
      "111" 5 "customer@gmail.com" "221B Baker Street").store.UniqueISBN :=
  have hreach : ((Store.empty.add
      (Book.PaperBook "111" "Effective C++" "Scott Meyers" 2018 45 3)).store.buy
      "111" 5 "customer@gmail.com" "221B Baker Street").store.Reachable :=
    Store.Reachable.afterBuy _ "111" 5 "customer@gmail.com" "221B Baker Street"
      (Store.Reachable.afterAdd _ _ Store.Reachable.init)
  ⟨hreach, (reachable_isbn_unique _ hreach).1⟩

/-- Counterexample to C4 as stated: a paper book with stock 2147483647 and the
quantity -1.  The purchase succeeds, and the stock afterwards is -2147483648,
not 2147483647 - (-1). -/
theorem paper_buy_stock_overflow :
    (Store.mk [Book.PaperBook "111" "Effective C++" "Scott Meyers" 2018 45 2147483647]).UniqueISBN ∧
    ((Store.mk [Book.PaperBook "111" "Effective C++" "Scott Meyers" 2018 45 2147483647]).buy
        "111" (-1) "customer@gmail.com" "221B Baker Street").result = Except.ok (-45) ∧
    ((Store.mk [Book.PaperBook "111" "Effective C++" "Scott Meyers" 2018 45 2147483647]).buy
        "111" (-1) "customer@gmail.com" "221B Baker Street").store.books =
      [Book.PaperBook "111" "Effective C++" "Scott Meyers" 2018 45 (-2147483648)] ∧
    ((Store.mk [Book.PaperBook "111" "Effective C++" "Scott Meyers" 2018 45 2147483647]).buy
        "111" (-1) "customer@gmail.com" "221B Baker Street").store.books ≠
      [Book.PaperBook "111" "Effective C++" "Scott Meyers" 2018 45 (2147483647 - (-1))] := by
  refine ⟨by decide, rfl, by decide, by decide⟩

/-- C4, amended: in a store with unique ISBNs that holds a paper book with
stock `stock` under `isbn`, `available(qty)` is true exactly when
`qty ≤ stock`; `buy(isbn, qty, ...)` returns (the total `price * qty`) exactly
when `qty ≤ stock` and otherwise throws "Book unavailable for purchase"; and
after a returning `buy` the store is the old one with that book's stock
replaced by `stock - qty`, provided `stock - qty ≤ 2147483647`. -/
theorem paper_buy (s : Store) (isbn title author : String) (year : Int) (price : Double)
    (stock qty : Int) (email addr : String) (hu : s.UniqueISBN)
    (hb : Book.PaperBook isbn title author year price stock ∈ s.books) :
    ((Book.PaperBook isbn title author year price stock).available qty = true ↔ qty ≤ stock) ∧
    ((∃ total, (s.buy isbn qty email addr).result = Except.ok total) ↔ qty ≤ stock) ∧
    (qty ≤ stock → (s.buy isbn qty email addr).result = Except.ok (price * Double.ofInt qty)) ∧
    (¬ qty ≤ stock →
      (s.buy isbn qty email addr).result = Except.error "Book unavailable for purchase") ∧
    (qty ≤ stock → stock - qty ≤ 2147483647 →
      ∃ i, s.books[i]? = some (Book.PaperBook isbn title author year price stock) ∧
        (s.buy isbn qty email addr).store.books =
          s.books.set i (Book.PaperBook isbn title author year price (stock - qty))) := by
  obtain ⟨i, hfind, hget⟩ := Store.find_of_unique s.books _ hu hb
  simp only [Book.getISBN] at hfind
  have hok : qty ≤ stock → s.buy isbn qty email addr =
      ⟨Except.ok (price * Double.ofInt qty),
        ⟨s.books.set i (Book.PaperBook isbn title author year price (wrapInt (stock - qty)))⟩,
        ["Quantum book store: Shipped '" ++ title ++ "' to " ++ addr]⟩ := by
    intro hle
    have hdel : (Book.PaperBook isbn title author year price stock).deliver email addr qty =
        Except.ok (Book.PaperBook isbn title author year price (wrapInt (stock - qty)),
          "Quantum book store: Shipped '" ++ title ++ "' to " ++ addr) := by
      simp [Book.deliver, Int.not_lt.mpr hle]
    have h := Store.buy_of_deliver_ok s isbn qty email addr i _ _ _ hfind
      (by simp [Book.available, hle]) hdel
    simpa [Book.getPrice] using h
  have hfail : ¬ qty ≤ stock → s.buy isbn qty email addr =
      ⟨Except.error "Book unavailable for purchase", s, []⟩ := by
    intro hnle
    exact Store.buy_of_not_available s isbn qty email addr i _ hfind
      (by simp [Book.available, hnle])
  refine ⟨by simp [Book.available], ?_, ?_, ?_, ?_⟩
  · constructor
    · rintro ⟨total, ht⟩
      by_contra hnle
      rw [hfail hnle] at ht
      cases ht
    · intro hle
      exact ⟨price * Double.ofInt qty, by rw [hok hle]⟩
  · intro hle
    rw [hok hle]
  · intro hnle
    rw [hfail hnle]
  · intro hle hfit
    refine ⟨i, hget, ?_⟩
    rw [hok hle, wrapInt_eq_self (stock - qty) ⟨by omega, hfit⟩]

/-- Witness of C4: the first purchase of the test, two copies of "111" out of a
stock of three. -/
theorem paper_buy_witness :
    testStore.UniqueISBN ∧
    Book.PaperBook "111" "Effective C++" "Scott Meyers" 2018 45 3 ∈ testStore.books ∧
    (2 : Int) ≤ 3 ∧ (3 : Int) - 2 ≤ 2147483647 ∧
    (testStore.buy "111" 2 "customer@gmail.com" "221B Baker Street").result =
      Except.ok (45 * Double.ofInt 2) ∧
    ∃ i, testStore.books[i]? = some (Book.PaperBook "111" "Effective C++" "Scott Meyers" 2018 45 3) ∧
      (testStore.buy "111" 2 "customer@gmail.com" "221B Baker Street").store.books =
        testStore.books.set i (Book.PaperBook "111" "Effective C++" "Scott Meyers" 2018 45 (3 - 2)) :=
  have h := paper_buy testStore "111" "Effective C++" "Scott Meyers" 2018 45 3 2
    "customer@gmail.com" "221B Baker Street" (by decide) (by decide)
  ⟨by decide, by decide, by decide, by decide, h.2.2.1 (by decide),
    h.2.2.2.2 (by decide) (by decide)⟩

/-- Counterexample to C5 as stated: a paper book of price 0.1 and the quantity
3.  The purchase returns `1351079888211149 * 2^(-52)`, the double nearest to
the product (0.30000000000000004), which is not the exact product of the
price and 3. -/
theorem buy_total_rounded :
    ((Store.mk [Book.PaperBook "111" "Effective C++" "Scott Meyers" 2018 Double.oneTenth 3]).buy
        "111" 3 "customer@gmail.com" "221B Baker Street").result =
      Except.ok (Double.finite false 1351079888211149 (-52)) ∧
    Double.oneTenth.value = some (3602879701896397 / 36028797018963968) ∧
    (Double.finite false 1351079888211149 (-52)).value =
      some (1351079888211149 / 4503599627370496) ∧
    (1351079888211149 / 4503599627370496 : ℚ) ≠ 3602879701896397 / 36028797018963968 * 3 ∧
    (Double.finite false 1351079888211149 (-52)).value ≠
      Double.oneTenth.value.map (fun v => v * ((3 : Int) : ℚ)) := by
  refine ⟨rfl, ?_, ?_, ?_, ?_⟩
  · simp only [Double.oneTenth, Double.value]
    norm_num
  · simp only [Double.value]
    norm_num
  · norm_num
  · simp only [Double.oneTenth, Double.value, Option.map_some']
    norm_num

/-- C5, amended: whenever `Store::buy` returns a total, the search found a book
under the requested ISBN and the total is the `double` product of that book's
unit price and the quantity, `getPrice() * qty`: the exact product rounded to
the nearest double.  The total is the exact product whenever nothing is
rounded away, as when the price is `m * 2^e` with `-1074 ≤ e ≤ 900` and
`m * |qty| < 2^53`. -/
theorem buy_total (s : Store) (isbn : String) (qty : Int) (email addr : String) (total : Double)
    (h : (s.buy isbn qty email addr).result = Except.ok total) :
    ∃ i found, Store.find s.books isbn = some (i, found) ∧ found.getISBN = isbn ∧
      found ∈ s.books ∧ total = found.getPrice * Double.ofInt qty ∧
      (∀ (neg : Bool) (m : Nat) (e : Int), found.getPrice = Double.finite neg m e →
        -1074 ≤ e → e ≤ 900 → inIntRange qty → m * qty.natAbs < 2 ^ 53 →
        total.value = found.getPrice.value.map (fun v => v * (qty : ℚ))) := by
  cases hfind : Store.find s.books isbn with
  | none =>
    rw [Store.buy_of_find_none s isbn qty email addr hfind] at h
    cases h
  | some p =>
    obtain ⟨i, found⟩ := p
    obtain ⟨hget, hk, -⟩ := Store.find_some_spec s.books isbn i found hfind
    have htotal : total = found.getPrice * Double.ofInt qty := by
      cases havail : found.available qty with
      | false =>
        rw [Store.buy_of_not_available s isbn qty email addr i found hfind havail] at h
        cases h
      | true =>
        cases hdel : found.deliver email addr qty with
        | error e =>
          rw [Store.buy_of_deliver_error s isbn qty email addr i found e hfind havail
            hdel] at h
          cases h
        | ok r =>
          obtain ⟨found', line⟩ := r
          rw [Store.buy_of_deliver_ok s isbn qty email addr i found found' line hfind havail
            hdel] at h
          simp only [Except.ok.injEq] at h
          rw [← h, Book.deliver_getPrice found found' email addr line qty hdel]
    refine ⟨i, found, rfl, hk, List.getElem?_mem hget, htotal, ?_⟩
    intro neg m e hprice hlo hhi hq hm
    rw [htotal, hprice]
    exact Double.value_mul_ofInt_map neg m e qty hq hlo hhi hm

/-- Witness of C5: the first purchase of the test, two copies of the paper book
"111" at 45: the total is 90, and it is the exact product. -/
theorem buy_total_witness :
    (testStore.buy "111" 2 "customer@gmail.com" "221B Baker Street").result = Except.ok 90 ∧
    (45 : Double) = Double.finite false 45 0 ∧ inIntRange 2 ∧
    (45 : Nat) * (2 : Int).natAbs < 2 ^ 53 ∧
    (90 : Double).value = some 90 ∧
    ∃ i found, Store.find testStore.books "111" = some (i, found) ∧ found.getISBN = "111" ∧
      found ∈ testStore.books ∧ (90 : Double) = found.getPrice * Double.ofInt 2 ∧
      (∀ (neg : Bool) (m : Nat) (e : Int), found.getPrice = Double.finite neg m e →
        -1074 ≤ e → e ≤ 900 → inIntRange 2 → m * (2 : Int).natAbs < 2 ^ 53 →
        (90 : Double).value = found.getPrice.value.map (fun v => v * ((2 : Int) : ℚ))) :=
  have h : (testStore.buy "111" 2 "customer@gmail.com" "221B Baker Street").result =
      Except.ok 90 := rfl
  ⟨h, by decide, by decide, by decide, Double.value_ofInt 90 (by decide),
    buy_total testStore "111" 2 "customer@gmail.com" "221B Baker Street" 90 h⟩

/-- Counterexample to C6 as stated: in the test's catalog no book has ISBN
"999" and the book found under "333" is not available, yet the two purchases
throw one and the same error, so the caller cannot tell them apart. -/
theorem buy_errors_indistinguishable :
    (∀ b ∈ testStore.books, b.getISBN ≠ "999") ∧
    (∃ i found, Store.find testStore.books "333" = some (i, found) ∧
      found.available 1 = false) ∧
    (testStore.buy "999" 1 "test@test.com" "Some Address").result =
      Except.error "Book unavailable for purchase" ∧
    (testStore.buy "333" 1 "test@test.com" "Some Address").result =
      Except.error "Book unavailable for purchase" ∧
    (testStore.buy "999" 1 "test@test.com" "Some Address").result =
      (testStore.buy "333" 1 "test@test.com" "Some Address").result := by
  refine ⟨by decide, ⟨2, Book.DemoBook "333" "Ancient Manuscript" "Unknown" 1800, by decide,
    by decide⟩, ?_, ?_, ?_⟩ <;>
  simp [testStore, Store.buy, Store.find, Book.getISBN, Book.available]

/-- C6, amended: `Store::buy` throws "Book unavailable for purchase" when no
held book has the requested ISBN, and it throws the same
"Book unavailable for purchase" when the book found under the ISBN has
`available(qty)` false; the two lookup outcomes are reported by one error. -/
theorem buy_unavailable_message (s : Store) (isbn : String) (qty : Int) (email addr : String) :
    ((∀ b ∈ s.books, b.getISBN ≠ isbn) →
      (s.buy isbn qty email addr).result = Except.error "Book unavailable for purchase") ∧
    (∀ (i : Nat) (found : Book), Store.find s.books isbn = some (i, found) →
      found.available qty = false →
      (s.buy isbn qty email addr).result = Except.error "Book unavailable for purchase") := by
  constructor
  · intro habsent
    rw [Store.buy_of_find_none s isbn qty email addr
      ((Store.find_eq_none_iff s.books isbn).mpr habsent)]
  · intro i found hfind havail
    rw [Store.buy_of_not_available s isbn qty email addr i found hfind havail]

/-- Witness of C6: the ISBN "999" that the test's catalog does not hold, and
the demo book "333" that it holds. -/
theorem buy_unavailable_message_witness :
    (∀ b ∈ testStore.books, b.getISBN ≠ "999") ∧
    (testStore.buy "999" 1 "test@test.com" "Some Address").result =
      Except.error "Book unavailable for purchase" ∧
    Store.find testStore.books "333" =
      some (2, Book.DemoBook "333" "Ancient Manuscript" "Unknown" 1800) ∧
    (Book.DemoBook "333" "Ancient Manuscript" "Unknown" 1800).available 1 = false ∧
    (testStore.buy "333" 1 "test@test.com" "Some Address").result =
      Except.error "Book unavailable for purchase" :=
  ⟨by decide,
    (buy_unavailable_message testStore "999" 1 "test@test.com" "Some Address").1 (by decide),
    by decide, by decide,
    (buy_unavailable_message testStore "333" 1 "test@test.com" "Some Address").2 2
      (Book.DemoBook "333" "Ancient Manuscript" "Unknown" 1800) (by decide) (by decide)⟩

/-- C7: in a store with unique ISBNs that holds a demo book under `isbn`,
`buy(isbn, qty, ...)` throws "Book unavailable for purchase" for every
quantity, returns no total, and leaves the store as it was. -/
theorem demo_buy_fails (s : Store) (isbn title author : String) (year : Int) (qty : Int)
    (email addr : String) (hu : s.UniqueISBN)
    (hb : Book.DemoBook isbn title author year ∈ s.books) :
    (s.buy isbn qty email addr).result = Except.error "Book unavailable for purchase" ∧
    (∀ total, (s.buy isbn qty email addr).result ≠ Except.ok total) ∧
    (s.buy isbn qty email addr).store = s := by
  obtain ⟨i, hfind, -⟩ := Store.find_of_unique s.books _ hu hb
  simp only [Book.getISBN] at hfind
  have h := Store.buy_of_not_available s isbn qty email addr i _ hfind
    (by simp [Book.available])
  rw [h]
  exact ⟨rfl, fun total ht => (by cases ht), rfl⟩

/-- Witness of C7: the third purchase of the test, the demo book "333", here
with a negative quantity. -/
theorem demo_buy_fails_witness :
    testStore.UniqueISBN ∧
    Book.DemoBook "333" "Ancient Manuscript" "Unknown" 1800 ∈ testStore.books ∧
    (testStore.buy "333" (-4) "test@test.com" "Some Address").result =
      Except.error "Book unavailable for purchase" ∧
    (testStore.buy "333" (-4) "test@test.com" "Some Address").store = testStore :=
  have h := demo_buy_fails testStore "333" "Ancient Manuscript" "Unknown" 1800 (-4)
    "test@test.com" "Some Address" (by decide) (by decide)
  ⟨by decide, by decide, h.1, h.2.2⟩

/-- Counterexample to C8 as stated: an e-book of price 19.99 and the quantity 3
returns `2110006794167255 * 2^(-45)` (59.97), which is not the exact product
of the price and 3; and an e-book of price 1e308 with the quantity 10 returns
the infinity, which is no product of numbers at all. -/
theorem ebook_total_rounded :
    (Store.mk [Book.EBook "222" "Deep Learning" "Ian Goodfellow" 2016 Double.nineteen99
        "epub"]).UniqueISBN ∧
    ((Store.mk [Book.EBook "222" "Deep Learning" "Ian Goodfellow" 2016 Double.nineteen99
        "epub"]).buy "222" 3 "reader@mail.com" "").result =
      Except.ok (Double.finite false 2110006794167255 (-45)) ∧
    (Double.finite false 2110006794167255 (-45)).value ≠
      Double.nineteen99.value.map (fun v => v * ((3 : Int) : ℚ)) ∧
    ((Store.mk [Book.EBook "222" "Deep Learning" "Ian Goodfellow" 2016 Double.tenTo308
        "epub"]).buy "222" 10 "reader@mail.com" "").result = Except.ok (Double.inf false) ∧
    (Double.inf false).value = none := by
  refine ⟨by decide, rfl, ?_, rfl, rfl⟩
  simp only [Double.nineteen99, Double.value, Option.map_some']
  norm_num

/-- C8, amended: in a store with unique ISBNs that holds an e-book with price
`price` under `isbn`, `buy(isbn, qty, ...)` returns for every quantity the
`double` product `price * qty`, the exact product rounded to the nearest
double, and leaves the store, the e-book included, as it was; the returned
total is the same whatever the format of the e-book is.  The total is the
exact product whenever nothing is rounded away, as when the price is
`m * 2^e` with `-1074 ≤ e ≤ 900` and `m * |qty| < 2^53`. -/
theorem ebook_buy (s : Store) (isbn title author : String) (year : Int) (price : Double)
    (format : String) (qty : Int) (email addr : String) (hu : s.UniqueISBN)
    (hb : Book.EBook isbn title author year price format ∈ s.books) :
    (s.buy isbn qty email addr).result = Except.ok (price * Double.ofInt qty) ∧
    (s.buy isbn qty email addr).store = s ∧
    (∀ (s' : Store) (format' : String), s'.UniqueISBN →
      Book.EBook isbn title author year price format' ∈ s'.books →
      (s'.buy isbn qty email addr).result = (s.buy isbn qty email addr).result ∧
      (s'.buy isbn qty email addr).store = s') ∧
    (∀ (neg : Bool) (m : Nat) (e : Int), price = Double.finite neg m e →
      -1074 ≤ e → e ≤ 900 → inIntRange qty → m * qty.natAbs < 2 ^ 53 →
      (price * Double.ofInt qty).value = price.value.map (fun v => v * (qty : ℚ))) := by
  have key : ∀ (t : Store) (fmt : String), t.UniqueISBN →
      Book.EBook isbn title author year price fmt ∈ t.books →
      (t.buy isbn qty email addr).result = Except.ok (price * Double.ofInt qty) ∧
      (t.buy isbn qty email addr).store = t := by
    intro t fmt htu htb
    obtain ⟨i, hfind, hget⟩ := Store.find_of_unique t.books _ htu htb
    simp only [Book.getISBN] at hfind
    have h := Store.buy_of_deliver_ok t isbn qty email addr i _ _ _ hfind
      (by simp [Book.available]) rfl
    rw [h]
    simp [Book.getPrice, Store.set_same t.books i _ hget]
  refine ⟨(key s format hu hb).1, (key s format hu hb).2, ?_, ?_⟩
  · intro s' format' hu' hb'
    exact ⟨by rw [(key s' format' hu' hb').1, (key s format hu hb).1],
      (key s' format' hu' hb').2⟩
  · intro neg m e hprice hlo hhi hq hm
    rw [hprice]
    exact Double.value_mul_ofInt_map neg m e qty hq hlo hhi hm

/-- Witness of C8: three copies of the e-book "222" of the test's catalog, at
35: the total is 105, the exact product. -/
theorem ebook_buy_witness :
    testStore.UniqueISBN ∧
    Book.EBook "222" "Deep Learning" "Ian Goodfellow" 2016 35 "epub" ∈ testStore.books ∧
    (testStore.buy "222" 3 "reader@mail.com" "").result = Except.ok (35 * Double.ofInt 3) ∧
    (35 * Double.ofInt 3 : Double) = 105 ∧
    (testStore.buy "222" 3 "reader@mail.com" "").store = testStore ∧
    (35 * Double.ofInt 3 : Double).value =
      (35 : Double).value.map (fun v => v * ((3 : Int) : ℚ)) :=
  have h := ebook_buy testStore "222" "Deep Learning" "Ian Goodfellow" 2016 35 "epub" 3
    "reader@mail.com" "" (by decide) (by decide)
  ⟨by decide, by decide, h.1, by decide, h.2.1,
    h.2.2.2 false 35 0 (by decide) (by decide) (by decide) (by decide) (by decide)⟩

/-- Counterexample to C9 as stated: a book of the year -2147483648 and
`purgeOld(2024, 100)`.  The age `2024 - (-2147483648)` exceeds 100, yet the
book stays in the store and no ISBN is returned. -/
theorem purgeOld_age_overflow :
    (2024 : Int) - (Book.DemoBook "333" "Ancient Manuscript" "Unknown" (-2147483648)).getYear >
      100 ∧
    ((Store.mk [Book.DemoBook "333" "Ancient Manuscript" "Unknown" (-2147483648)]).purgeOld
        2024 100).result = Except.ok [] ∧
    ((Store.mk [Book.DemoBook "333" "Ancient Manuscript" "Unknown" (-2147483648)]).purgeOld
        2024 100).store.books =
      [Book.DemoBook "333" "Ancient Manuscript" "Unknown" (-2147483648)] := by
  refine ⟨by decide, ?_, by decide⟩
  simp [Store.purgeOld, Store.purgeLoop, Book.getYear, wrapInt]

/-- C9, amended: when `currentYear - year` lies in the range of `int` for every
held book, `purgeOld` partitions the store exactly: the books remaining are the
held books with `currentYear - year ≤ ageLimit`, unmodified and in their
order; the returned list is the ISBNs of the held books with
`currentYear - year > ageLimit`, in scan order; the remaining size is the old
size minus the number of returned ISBNs; and a book whose age equals `ageLimit`
is kept. -/
theorem purgeOld_partition (s : Store) (currentYear ageLimit : Int)
    (hfit : ∀ b ∈ s.books, inIntRange (currentYear - b.getYear)) :
    (s.purgeOld currentYear ageLimit).store.books =
      s.books.filter (fun b => decide (currentYear - b.getYear ≤ ageLimit)) ∧
    (s.purgeOld currentYear ageLimit).result =
      Except.ok ((s.books.filter
        (fun b => decide (currentYear - b.getYear > ageLimit))).map Book.getISBN) ∧
    (s.purgeOld currentYear ageLimit).store.books.length =
      s.books.length -
        ((s.books.filter
          (fun b => decide (currentYear - b.getYear > ageLimit))).map Book.getISBN).length ∧
    (∀ b ∈ s.books, currentYear - b.getYear = ageLimit →
      b ∈ (s.purgeOld currentYear ageLimit).store.books) := by
  have hkeep : (s.purgeOld currentYear ageLimit).store.books =
      s.books.filter (fun b => decide (currentYear - b.getYear ≤ ageLimit)) := by
    rw [Store.purgeOld_books]
    apply List.filter_congr
    intro b hb
    rw [wrapInt_eq_self _ (hfit b hb)]
  refine ⟨hkeep, ?_, ?_, ?_⟩
  · rw [Store.purgeOld_result]
    congr 2
    apply List.filter_congr
    intro b hb
    rw [wrapInt_eq_self _ (hfit b hb)]
  · rw [hkeep, List.length_map]
    have h := Store.filter_length_split s.books (fun b => currentYear - b.getYear) ageLimit
    omega
  · intro b hb hage
    rw [hkeep, List.mem_filter]
    exact ⟨hb, by simp [hage]⟩

/-- Witness of C9: `purgeOld(2024, 100)` on the test's catalog. -/
theorem purgeOld_partition_witness :
    (∀ b ∈ testStore.books, inIntRange (2024 - b.getYear)) ∧
    (testStore.purgeOld 2024 100).store.books =
      testStore.books.filter (fun b => decide (2024 - b.getYear ≤ 100)) ∧
    (testStore.purgeOld 2024 100).result =
      Except.ok ((testStore.books.filter
        (fun b => decide (2024 - b.getYear > 100))).map Book.getISBN) :=
  have h := purgeOld_partition testStore 2024 100 (by decide)
  ⟨by decide, h.1, h.2.1⟩

/-- C10: a second `purgeOld` with the same arguments, right after the first,
returns the empty list and leaves the store exactly as the first call left
it. -/
theorem purgeOld_twice (s : Store) (currentYear ageLimit : Int) :
    ((s.purgeOld currentYear ageLimit).store.purgeOld currentYear ageLimit).result =
      Except.ok [] ∧
    ((s.purgeOld currentYear ageLimit).store.purgeOld currentYear ageLimit).store =
      (s.purgeOld currentYear ageLimit).store := by
  constructor
  · rw [Store.purgeOld_result, Store.purgeOld_books, List.filter_filter]
    have hnil : s.books.filter (fun b =>
        decide (wrapInt (currentYear - b.getYear) > ageLimit) &&
          decide (wrapInt (currentYear - b.getYear) ≤ ageLimit)) = [] := by
      rw [List.filter_eq_nil_iff]
      intro b _
      simp only [Bool.and_eq_true, decide_eq_true_eq]
      omega
    rw [hnil]
    rfl
  · have hbooks : ((s.purgeOld currentYear ageLimit).store.purgeOld currentYear
        ageLimit).store.books = (s.purgeOld currentYear ageLimit).store.books := by
      rw [Store.purgeOld_books, Store.purgeOld_books, List.filter_filter]
      apply List.filter_congr
      intro b _
      simp
    cases hs : ((s.purgeOld currentYear ageLimit).store.purgeOld currentYear ageLimit).store
    cases ht : (s.purgeOld currentYear ageLimit).store
    rw [hs, ht] at hbooks
    simpa using hbooks

/-- C11: `Store::buy` is atomic on failure: whenever `buy` throws, with any
message, the store after the call is the store before it (so the stock of no
paper book has changed), and no total is returned. -/
theorem buy_failure_atomic (s : Store) (isbn : String) (qty : Int) (email addr : String)
    (e : String) (h : (s.buy isbn qty email addr).result = Except.error e) :
    (s.buy isbn qty email addr).store = s ∧
    (s.buy isbn qty email addr).store.books = s.books ∧
    (∀ total, (s.buy isbn qty email addr).result ≠ Except.ok total) := by
  have hno : ∀ total, (s.buy isbn qty email addr).result ≠ Except.ok total := by
    intro total ht
    rw [h] at ht
    cases ht
  rcases Store.buy_cases s isbn qty email addr with ⟨-, hb⟩ | ⟨i, found, -, -, hb⟩ |
      ⟨i, found, found', line, -, -, -, hb⟩
  · rw [hb] at hno ⊢
    exact ⟨rfl, rfl, hno⟩
  · rw [hb] at hno ⊢
    exact ⟨rfl, rfl, hno⟩
  · rw [hb] at h
    cases h

/-- Witness of C11: five copies of "111" asked of the test's catalog, which has
three in stock. -/
theorem buy_failure_atomic_witness :
    (testStore.buy "111" 5 "customer@gmail.com" "221B Baker Street").result =
      Except.error "Book unavailable for purchase" ∧
    (testStore.buy "111" 5 "customer@gmail.com" "221B Baker Street").store = testStore :=
  have h : (testStore.buy "111" 5 "customer@gmail.com" "221B Baker Street").result =
      Except.error "Book unavailable for purchase" := by
    simp [testStore, Store.buy, Store.find, Book.getISBN, Book.available]
  ⟨h, (buy_failure_atomic testStore "111" 5 "customer@gmail.com" "221B Baker Street" _ h).1⟩

/-- C12: in a store with unique ISBNs, an ISBN returned by `purgeOld` is held by
no book of the store that `purgeOld` leaves; a following `buy` under that ISBN
finds no book (`found` stays `NULL`) and throws, for every quantity, leaving
the store as it is; and a following `add` of any book with that ISBN returns
normally and appends the book. -/
theorem purged_isbn_gone (s : Store) (currentYear ageLimit : Int) (isbn : String)
    (removed : List String) (hu : s.UniqueISBN)
    (hres : (s.purgeOld currentYear ageLimit).result = Except.ok removed)
    (hk : isbn ∈ removed) :
    (∀ b ∈ (s.purgeOld currentYear ageLimit).store.books, b.getISBN ≠ isbn) ∧
    (∀ (qty : Int) (email addr : String),
      Store.find (s.purgeOld currentYear ageLimit).store.books isbn = none ∧
      ((s.purgeOld currentYear ageLimit).store.buy isbn qty email addr).result =
        Except.error "Book unavailable for purchase" ∧
      ((s.purgeOld currentYear ageLimit).store.buy isbn qty email addr).store =
        (s.purgeOld currentYear ageLimit).store) ∧
    (∀ book : Book, book.getISBN = isbn →
      ((s.purgeOld currentYear ageLimit).store.add book).result = Except.ok () ∧
      ((s.purgeOld currentYear ageLimit).store.add book).store.books =
        (s.purgeOld currentYear ageLimit).store.books ++ [book]) := by
  obtain ⟨b, hb, hbk, hage⟩ :=
    Store.mem_purgeOld_result s currentYear ageLimit isbn removed hres hk
  have hgone : ∀ c ∈ (s.purgeOld currentYear ageLimit).store.books, c.getISBN ≠ isbn := by
    intro c hc hck
    rw [Store.purgeOld_books, List.mem_filter] at hc
    have hcb : c = b := Store.pairwise_same_isbn s.books c b hu hc.1 hb (hck.trans hbk.symm)
    subst hcb
    have hle : wrapInt (currentYear - c.getYear) ≤ ageLimit := by simpa using hc.2
    omega
  have hnone : Store.find (s.purgeOld currentYear ageLimit).store.books isbn = none :=
    (Store.find_eq_none_iff _ isbn).mpr hgone
  refine ⟨hgone, ?_, ?_⟩
  · intro qty email addr
    rw [Store.buy_of_find_none _ isbn qty email addr hnone]
    exact ⟨hnone, rfl, rfl⟩
  · intro book hbook
    have hscan : Store.hasISBN (s.purgeOld currentYear ageLimit).store.books book.getISBN =
        false := by
      rw [← Bool.not_eq_true, Store.hasISBN_iff]
      rintro ⟨c, hc, hck⟩
      exact hgone c hc (hck.trans hbook)
    simp [Store.add, hscan]

/-- Witness of C12: `purgeOld(2024, 100)` on the test's catalog returns "333". -/
theorem purged_isbn_gone_witness :
    testStore.UniqueISBN ∧
    (testStore.purgeOld 2024 100).result = Except.ok ["333"] ∧
    "333" ∈ ["333"] ∧
    (∀ b ∈ (testStore.purgeOld 2024 100).store.books, b.getISBN ≠ "333") ∧
    ((testStore.purgeOld 2024 100).store.buy "333" 1 "test@test.com" "Some Address").result =
      Except.error "Book unavailable for purchase" ∧
    ((testStore.purgeOld 2024 100).store.add
      (Book.DemoBook "333" "Ancient Manuscript" "Unknown" 1800)).result = Except.ok () :=
  have hres : (testStore.purgeOld 2024 100).result = Except.ok ["333"] := by
    simp [testStore, Store.purgeOld, Store.purgeLoop, Book.getYear, Book.getISBN, wrapInt]
  have h := purged_isbn_gone testStore 2024 100 "333" ["333"] (by decide) hres (by decide)
  ⟨by decide, hres, by decide, h.1, (h.2.1 1 "test@test.com" "Some Address").2.1,
    (h.2.2 (Book.DemoBook "333" "Ancient Manuscript" "Unknown" 1800) rfl).1⟩

/-- C13: the scenario of `runTests`.  The three `add` calls on the empty store
build the test's catalog; `buy("111", 2)` returns 90 and leaves stock 1;
`buy("222", 1)` then returns 35; `buy("333", 1)` then throws
"Book unavailable for purchase"; `purgeOld(2024, 100)` then returns exactly
["333"] and the store holds exactly the books "111" and "222". -/
theorem runTests_scenario :
    (((Store.empty.add (Book.PaperBook "111" "Effective C++" "Scott Meyers" 2018 45 3)).store.add
        (Book.EBook "222" "Deep Learning" "Ian Goodfellow" 2016 35 "epub")).store.add
        (Book.DemoBook "333" "Ancient Manuscript" "Unknown" 1800)).store = testStore ∧
    (testStore.buy "111" 2 "customer@gmail.com" "221B Baker Street").result = Except.ok 90 ∧
    (testStore.buy "111" 2 "customer@gmail.com" "221B Baker Street").store =
      testStoreAfterBuy ∧
    (testStoreAfterBuy.buy "222" 1 "reader@mail.com" "").result = Except.ok 35 ∧
    (testStoreAfterBuy.buy "222" 1 "reader@mail.com" "").store = testStoreAfterBuy ∧
    (testStoreAfterBuy.buy "333" 1 "test@test.com" "Some Address").result =
      Except.error "Book unavailable for purchase" ∧
    (testStoreAfterBuy.buy "333" 1 "test@test.com" "Some Address").store =
      testStoreAfterBuy ∧
    (testStoreAfterBuy.purgeOld 2024 100).result = Except.ok ["333"] ∧
    (testStoreAfterBuy.purgeOld 2024 100).store.books =
      [Book.PaperBook "111" "Effective C++" "Scott Meyers" 2018 45 1,
        Book.EBook "222" "Deep Learning" "Ian Goodfellow" 2016 35 "epub"] ∧
    (testStoreAfterBuy.purgeOld 2024 100).store.books.map Book.getISBN = ["111", "222"] := by
  refine ⟨by decide, ?_, by decide, ?_, by decide, ?_, by decide, ?_, by decide, by decide⟩
  · rfl
  · rfl
  · rfl
  · simp [testStoreAfterBuy, Store.purgeOld, Store.purgeLoop, Book.getYear, Book.getISBN,
      wrapInt]

/-- Counterexample to C14 as stated: the public constructor of `PaperBook`
takes any price, so the store reached by adding a paper book constructed with
price -45 holds a book with a negative price. -/
theorem negative_price_held :
    (Store.empty.add
      (Book.PaperBook "111" "Effective C++" "Scott Meyers" 2018 (-45) 3)).store.Reachable ∧
    ∃ b ∈ (Store.empty.add
      (Book.PaperBook "111" "Effective C++" "Scott Meyers" 2018 (-45) 3)).store.books,
      b.getPrice.isNegative = true ∧ b.getPrice.isNonneg = false := by
  refine ⟨Store.Reachable.afterAdd _ _ Store.Reachable.init,
    Book.PaperBook "111" "Effective C++" "Scott Meyers" 2018 (-45) 3, by decide, ?_, ?_⟩
  · decide
  · decide

/-- C14, amended: in every store reachable from the empty one by `add`, `buy`
and `purgeOld` where every book handed to `add` was constructed with a price
≥ 0, every held book has price ≥ 0; and every held demo book has price
exactly 0. -/
theorem price_nonneg_preserved (s : Store)
    (h : Store.ReachableBy (fun b => b.getPrice.isNonneg = true) s) :
    (∀ b ∈ s.books, b.getPrice.isNonneg = true) ∧
    (∀ b ∈ s.books, ∀ (isbn title author : String) (year : Int),
      b = Book.DemoBook isbn title author year → b.getPrice = 0) := by
  constructor
  · induction h with
    | init => simp [Store.empty]
    | afterAdd s book hbook _ ih =>
      exact Store.add_forall (fun b => b.getPrice.isNonneg = true) s book ih hbook
    | afterBuy s isbn qty email addr _ ih =>
      apply Store.buy_forall (fun b => b.getPrice.isNonneg = true) s isbn qty email addr ih
      intro i found found' line hfind hdel
      show found'.getPrice.isNonneg = true
      rw [Book.deliver_getPrice found found' email addr line qty hdel]
      exact ih found (List.getElem?_mem (Store.find_some_spec s.books isbn i found hfind).1)
    | afterPurgeOld s currentYear ageLimit _ ih =>
      exact Store.purgeOld_forall (fun b => b.getPrice.isNonneg = true) s currentYear
        ageLimit ih
  · intro b _ isbn title author year hb
    rw [hb]
    rfl

/-- Witness of C14: the store after adding the test's paper book, price 45, and
buying one copy. -/
theorem price_nonneg_preserved_witness :
    Store.ReachableBy (fun b => b.getPrice.isNonneg = true)
      ((Store.empty.add (Book.PaperBook "111" "Effective C++" "Scott Meyers" 2018 45 3)).store.buy
        "111" 1 "customer@gmail.com" "221B Baker Street").store ∧
    ∀ b ∈ ((Store.empty.add
        (Book.PaperBook "111" "Effective C++" "Scott Meyers" 2018 45 3)).store.buy
        "111" 1 "customer@gmail.com" "221B Baker Street").store.books,
      b.getPrice.isNonneg = true :=
  have hreach : Store.ReachableBy (fun b => b.getPrice.isNonneg = true)
      ((Store.empty.add (Book.PaperBook "111" "Effective C++" "Scott Meyers" 2018 45 3)).store.buy
        "111" 1 "customer@gmail.com" "221B Baker Street").store :=
    Store.ReachableBy.afterBuy _ "111" 1 "customer@gmail.com" "221B Baker Street"
      (Store.ReachableBy.afterAdd _ _ (by decide) Store.ReachableBy.init)
  ⟨hreach, (price_nonneg_preserved _ hreach).1⟩

/-- C15: `available` and `deliver` agree in every variant: for every book and
every quantity, `deliver` returns exactly when `available` is true.  Hence in
`Store::buy` the `deliver` call after a passing `available` check returns, and
the only message `buy` ever throws is "Book unavailable for purchase": the
messages of `deliver` do not come out of `buy`. -/
theorem available_deliver_consistent :
    (∀ (b : Book) (email addr : String) (qty : Int),
      (∃ r, b.deliver email addr qty = Except.ok r) ↔ b.available qty = true) ∧
    (∀ (s : Store) (isbn : String) (qty : Int) (email addr : String) (i : Nat) (found : Book),
      Store.find s.books isbn = some (i, found) → found.available qty = true →
      ∃ found' line, found.deliver email addr qty = Except.ok (found', line) ∧
        s.buy isbn qty email addr =
          ⟨Except.ok (found'.getPrice * Double.ofInt qty), ⟨s.books.set i found'⟩, [line]⟩) ∧
    (∀ (s : Store) (isbn : String) (qty : Int) (email addr : String) (e : String),
      (s.buy isbn qty email addr).result = Except.error e →
      e = "Book unavailable for purchase") ∧
    (∀ (s : Store) (isbn : String) (qty : Int) (email addr : String) (title : String),
      (s.buy isbn qty email addr).result ≠ Except.error ("Out of stock: " ++ title) ∧
      (s.buy isbn qty email addr).result ≠
        Except.error ("Demo book '" ++ title ++ "' not for sale")) := by
  have hmsg : ∀ (s : Store) (isbn : String) (qty : Int) (email addr : String) (e : String),
      (s.buy isbn qty email addr).result = Except.error e →
      e = "Book unavailable for purchase" := by
    intro s isbn qty email addr e h
    rcases Store.buy_cases s isbn qty email addr with ⟨-, hb⟩ | ⟨i, found, -, -, hb⟩ |
        ⟨i, found, found', line, -, -, -, hb⟩
    · rw [hb] at h
      simp only [Except.error.injEq] at h
      exact h.symm
    · rw [hb] at h
      simp only [Except.error.injEq] at h
      exact h.symm
    · rw [hb] at h
      cases h
  refine ⟨Book.deliver_ok_iff_available, ?_, hmsg, ?_⟩
  · intro s isbn qty email addr i found hfind havail
    obtain ⟨r, hdel⟩ := (Book.deliver_ok_iff_available found email addr qty).mpr havail
    obtain ⟨found', line⟩ := r
    exact ⟨found', line, hdel,
      Store.buy_of_deliver_ok s isbn qty email addr i found found' line hfind havail hdel⟩
  · intro s isbn qty email addr title
    exact ⟨fun h => Book.outOfStock_ne_unavailable title (hmsg s isbn qty email addr _ h),
      fun h => Book.notForSale_ne_unavailable title (hmsg s isbn qty email addr _ h)⟩

/-- Witness of C15: the paper book "111" of the test's catalog with the
quantities 2 (available, delivered) and 5 (neither), and the failing purchase
of five copies. -/
theorem available_deliver_consistent_witness :
    (Book.PaperBook "111" "Effective C++" "Scott Meyers" 2018 45 3).available 2 = true ∧
    (∃ r, (Book.PaperBook "111" "Effective C++" "Scott Meyers" 2018 45 3).deliver
      "customer@gmail.com" "221B Baker Street" 2 = Except.ok r) ∧
    (Book.PaperBook "111" "Effective C++" "Scott Meyers" 2018 45 3).available 5 = false ∧
    (¬ ∃ r, (Book.PaperBook "111" "Effective C++" "Scott Meyers" 2018 45 3).deliver
      "customer@gmail.com" "221B Baker Street" 5 = Except.ok r) :=
  ⟨by decide,
    (available_deliver_consistent.1 _ "customer@gmail.com" "221B Baker Street" 2).mpr
      (by decide),
    by decide,
    fun hex => absurd
      ((available_deliver_consistent.1 _ "customer@gmail.com" "221B Baker Street" 5).mp hex)
      (by decide)⟩

/-- Counterexample to C16 as stated: every paper book of the test's catalog has
stock ≥ 0.  After `buy("111", -2147483648)` the paper book "111" has stock
-2147483645; and after `add` of a paper book constructed with stock -1 the
store holds a paper book with negative stock. -/
theorem stock_negative_reached :
    (∀ b ∈ testStore.books, b.stockNonneg) ∧
    (testStore.buy "111" (-2147483648) "customer@gmail.com" "221B Baker Street").store.books =
      [Book.PaperBook "111" "Effective C++" "Scott Meyers" 2018 45 (-2147483645),
        Book.EBook "222" "Deep Learning" "Ian Goodfellow" 2016 35 "epub",
        Book.DemoBook "333" "Ancient Manuscript" "Unknown" 1800] ∧
    (¬ ∀ b ∈ (testStore.buy "111" (-2147483648) "customer@gmail.com"
        "221B Baker Street").store.books, b.stockNonneg) ∧
    (testStore.add (Book.PaperBook "444" "Refactoring" "Martin Fowler" 2018 50 (-1))).result =
      Except.ok () ∧
    (¬ ∀ b ∈ (testStore.add
        (Book.PaperBook "444" "Refactoring" "Martin Fowler" 2018 50 (-1))).store.books,
      b.stockNonneg) := by
  refine ⟨by decide, by decide, by decide, rfl, by decide⟩

/-- C16, amended: in a store where every paper book has stock ≥ 0, every paper
book still has stock ≥ 0 after a `buy` (any ISBN, returning or throwing) whose
quantity `qty` keeps `stock - qty` at most 2147483647 for the stock of the book
found, which every `qty ≥ 0` does for a stock in the range of `int`; after an
`add` of a book that is not a paper book with negative stock; and after any
`purgeOld`. -/
theorem stock_nonneg_preserved (s : Store) (h : ∀ b ∈ s.books, b.stockNonneg) :
    (∀ (isbn : String) (qty : Int) (email addr : String),
      (∀ (i : Nat) (k title author : String) (year : Int) (price : Double) (stock : Int),
        Store.find s.books isbn = some (i, Book.PaperBook k title author year price stock) →
        stock - qty ≤ 2147483647) →
      ∀ b ∈ (s.buy isbn qty email addr).store.books, b.stockNonneg) ∧
    (∀ (isbn : String) (qty : Int) (email addr : String), 0 ≤ qty →
      (∀ (i : Nat) (k title author : String) (year : Int) (price : Double) (stock : Int),
        Store.find s.books isbn = some (i, Book.PaperBook k title author year price stock) →
        stock ≤ 2147483647) →
      ∀ b ∈ (s.buy isbn qty email addr).store.books, b.stockNonneg) ∧
    (∀ book : Book, book.stockNonneg → ∀ b ∈ (s.add book).store.books, b.stockNonneg) ∧
    (∀ (currentYear ageLimit : Int),
      ∀ b ∈ (s.purgeOld currentYear ageLimit).store.books, b.stockNonneg) := by
  have hbuy : ∀ (isbn : String) (qty : Int) (email addr : String),
      (∀ (i : Nat) (k title author : String) (year : Int) (price : Double) (stock : Int),
        Store.find s.books isbn = some (i, Book.PaperBook k title author year price stock) →
        stock - qty ≤ 2147483647) →
      ∀ b ∈ (s.buy isbn qty email addr).store.books, b.stockNonneg := by
    intro isbn qty email addr hfit
    apply Store.buy_forall _ s isbn qty email addr h
    intro i found found' line hfind hdel
    rcases Book.deliver_frame found found' email addr line qty hdel with
      ⟨k, title, author, year, price, stock, rfl, rfl⟩ | ⟨k, title, author, year, price,
        format, rfl, rfl⟩
    · have hle := (Book.deliver_paper k title author year price stock qty email addr line _
        hdel).1
      have hup := hfit i k title author year price stock hfind
      rw [wrapInt_eq_self _ ⟨by omega, hup⟩]
      show 0 ≤ stock - qty
      omega
    · trivial
  refine ⟨hbuy, ?_, ?_, ?_⟩
  · intro isbn qty email addr hq hrange
    apply hbuy isbn qty email addr
    intro i k title author year price stock hfind
    have := hrange i k title author year price stock hfind
    omega
  · intro book hbook
    exact Store.add_forall _ s book h hbook
  · intro currentYear ageLimit
    exact Store.purgeOld_forall _ s currentYear ageLimit h

/-- Witness of C16: the first purchase of the test, two copies of "111". -/
theorem stock_nonneg_preserved_witness :
    (∀ b ∈ testStore.books, b.stockNonneg) ∧
    (∀ (i : Nat) (k title author : String) (year : Int) (price : Double) (stock : Int),
      Store.find testStore.books "111" =
        some (i, Book.PaperBook k title author year price stock) →
      stock - 2 ≤ 2147483647) ∧
    ∀ b ∈ (testStore.buy "111" 2 "customer@gmail.com" "221B Baker Street").store.books,
      b.stockNonneg :=
  have hfit : ∀ (i : Nat) (k title author : String) (year : Int) (price : Double) (stock : Int),
      Store.find testStore.books "111" =
        some (i, Book.PaperBook k title author year price stock) →
      stock - 2 ≤ 2147483647 := by
    intro i k title author year price stock hfind
    have h0 : Store.find testStore.books "111" =
        some (0, Book.PaperBook "111" "Effective C++" "Scott Meyers" 2018 45 3) := by decide
    rw [h0] at hfind
    simp only [Option.some.injEq, Prod.mk.injEq, Book.PaperBook.injEq] at hfind
    omega
  ⟨by decide, hfit,
    (stock_nonneg_preserved testStore (by decide)).1 "111" 2 "customer@gmail.com"
      "221B Baker Street" hfit⟩

/-- C17: a returning `Store::buy` changes at most the stock of the one book it
found, the first book with the ISBN: the list of books keeps its length, every
other position holds the book it held, and the found book keeps its ISBN,
title, author, year and price; an e-book is left as it was (format included),
a paper book differs at most in its stock. -/
theorem buy_frame (s : Store) (isbn : String) (qty : Int) (email addr : String) (total : Double)
    (h : (s.buy isbn qty email addr).result = Except.ok total) :
    ∃ (i : Nat) (found found' : Book),
      Store.find s.books isbn = some (i, found) ∧
      s.books[i]? = some found ∧
      (∀ (j : Nat), j < i → ∀ (c : Book), s.books[j]? = some c → c.getISBN ≠ isbn) ∧
      (s.buy isbn qty email addr).store.books = s.books.set i found' ∧
      (s.buy isbn qty email addr).store.books.length = s.books.length ∧
      (∀ (j : Nat), j ≠ i → (s.buy isbn qty email addr).store.books[j]? = s.books[j]?) ∧
      (s.buy isbn qty email addr).store.books[i]? = some found' ∧
      found'.getISBN = found.getISBN ∧ found'.getTitle = found.getTitle ∧
      found'.getAuthor = found.getAuthor ∧ found'.getYear = found.getYear ∧
      found'.getPrice = found.getPrice ∧
      ((∃ k title author year price format,
          found = Book.EBook k title author year price format ∧ found' = found) ∨
        (∃ k title author year price stock stock',
          found = Book.PaperBook k title author year price stock ∧
          found' = Book.PaperBook k title author year price stock')) := by
  rcases Store.buy_cases s isbn qty email addr with ⟨-, hb⟩ | ⟨i, found, -, -, hb⟩ |
      ⟨i, found, found', line, hfind, -, hdel, hb⟩
  · rw [hb] at h
    cases h
  · rw [hb] at h
    cases h
  · obtain ⟨hget, -, hfirst⟩ := Store.find_some_spec s.books isbn i found hfind
    have hi : i < s.books.length := (List.getElem?_eq_some_iff.mp hget).1
    have hbooks : (s.buy isbn qty email addr).store.books = s.books.set i found' := by
      rw [hb]
    refine ⟨i, found, found', hfind, hget, hfirst, hbooks, ?_, ?_, ?_, ?_⟩
    · rw [hbooks, List.length_set]
    · intro j hj
      rw [hbooks, List.getElem?_set_ne (Ne.symm hj)]
    · rw [hbooks, List.getElem?_set_self hi]
    · rcases Book.deliver_frame found found' email addr line qty hdel with
        ⟨k, title, author, year, price, stock, rfl, rfl⟩ | ⟨k, title, author, year, price,
          format, rfl, rfl⟩
      · exact ⟨rfl, rfl, rfl, rfl, rfl,
          Or.inr ⟨k, title, author, year, price, stock, _, rfl, rfl⟩⟩
      · exact ⟨rfl, rfl, rfl, rfl, rfl, Or.inl ⟨k, title, author, year, price, format, rfl, rfl⟩⟩

/-- Witness of C17: the first purchase of the test, two copies of "111". -/
theorem buy_frame_witness :
    (testStore.buy "111" 2 "customer@gmail.com" "221B Baker Street").result = Except.ok 90 ∧
    ∃ (i : Nat) (found found' : Book),
      Store.find testStore.books "111" = some (i, found) ∧
      (testStore.buy "111" 2 "customer@gmail.com" "221B Baker Street").store.books =
        testStore.books.set i found' ∧
      found'.getPrice = found.getPrice :=
  have h : (testStore.buy "111" 2 "customer@gmail.com" "221B Baker Street").result =
      Except.ok 90 := rfl
  have hf := buy_frame testStore "111" 2 "customer@gmail.com" "221B Baker Street" 90 h
  ⟨h, hf.elim fun i hi => hi.elim fun found hfound => hfound.elim fun found' hp =>
    ⟨i, found, found', hp.1, hp.2.2.2.1, hp.2.2.2.2.2.2.2.2.2.2.2.1⟩⟩

/-- Counterexample to C18 as stated.  A paper book with stock 1 and the
quantity -2147483647: the purchase returns, and the stock afterwards is
-2147483648, which is not 1 - (-2147483647) and is not greater than 1.  A
paper book of price 0.1 and the quantity -3: the total is
`-1351079888211149 * 2^(-52)`, not the exact product.  A paper book whose price
is the positive infinity, and the quantity 0: the price is ≥ 0 and the total is
NaN, which is not ≤ 0. -/
theorem negative_quantity_stock_overflow :
    (Store.mk [Book.PaperBook "111" "Effective C++" "Scott Meyers" 2018 45 1]).UniqueISBN ∧
    ((Store.mk [Book.PaperBook "111" "Effective C++" "Scott Meyers" 2018 45 1]).buy
        "111" (-2147483647) "customer@gmail.com" "221B Baker Street").store.books =
      [Book.PaperBook "111" "Effective C++" "Scott Meyers" 2018 45 (-2147483648)] ∧
    (-2147483648 : Int) ≠ 1 - (-2147483647) ∧
    ¬ ((1 : Int) < -2147483648) ∧
    ((Store.mk [Book.PaperBook "111" "Effective C++" "Scott Meyers" 2018 Double.oneTenth 3]).buy
        "111" (-3) "customer@gmail.com" "221B Baker Street").result =
      Except.ok (Double.finite true 1351079888211149 (-52)) ∧
    (Double.finite true 1351079888211149 (-52)).value ≠
      Double.oneTenth.value.map (fun v => v * ((-3 : Int) : ℚ)) ∧
    ((Store.mk [Book.PaperBook "111" "Effective C++" "Scott Meyers" 2018 (Double.inf false)
        3]).buy "111" 0 "customer@gmail.com" "221B Baker Street").result =
      Except.ok Double.nan ∧
    (Double.inf false).isNonneg = true ∧
    Double.nan.isNonpos = false := by
  refine ⟨by decide, by decide, by decide, by decide, rfl, ?_, rfl, rfl, rfl⟩
  simp only [Double.oneTenth, Double.value, Option.map_some']
  norm_num

/-- C18, amended: `Store::buy` checks no sign: in a store with unique ISBNs that
holds a paper book with stock `stock ≥ 0` and price `price` under `isbn`, for
every `qty ≤ 0` the call `buy(isbn, qty, ...)` returns the `double` product
`price * qty`, the exact product rounded to the nearest double (and the exact
product when nothing is rounded away), which is ≤ 0 when `price` is finite and
≥ 0; and provided `stock - qty ≤ 2147483647` it sets the stock of that book to
`stock - qty`, which is `stock` for `qty = 0` and greater than `stock` for
`qty < 0`. -/
theorem nonpositive_quantity_buy (s : Store) (isbn title author : String) (year : Int)
    (price : Double) (stock qty : Int) (email addr : String) (hu : s.UniqueISBN)
    (hb : Book.PaperBook isbn title author year price stock ∈ s.books)
    (hs : 0 ≤ stock) (hq : qty ≤ 0) :
    (Book.PaperBook isbn title author year price stock).available qty = true ∧
    (s.buy isbn qty email addr).result = Except.ok (price * Double.ofInt qty) ∧
    (price.isFinite = true → price.isNonneg = true → inIntRange qty →
      (price * Double.ofInt qty).isNonpos = true) ∧
    (∀ (neg : Bool) (m : Nat) (e : Int), price = Double.finite neg m e →
      -1074 ≤ e → e ≤ 900 → inIntRange qty → m * qty.natAbs < 2 ^ 53 →
      (price * Double.ofInt qty).value = price.value.map (fun v => v * (qty : ℚ))) ∧
    (stock - qty ≤ 2147483647 →
      ∃ i, s.books[i]? = some (Book.PaperBook isbn title author year price stock) ∧
        (s.buy isbn qty email addr).store.books =
          s.books.set i (Book.PaperBook isbn title author year price (stock - qty)) ∧
        (qty = 0 → stock - qty = stock ∧ (s.buy isbn qty email addr).store.books = s.books) ∧
        (qty < 0 → stock < stock - qty)) := by
  obtain ⟨i, hfind, hget⟩ := Store.find_of_unique s.books _ hu hb
  simp only [Book.getISBN] at hfind
  have hle : qty ≤ stock := by omega
  have havail : (Book.PaperBook isbn title author year price stock).available qty = true := by
    simp [Book.available, hle]
  have hdel : (Book.PaperBook isbn title author year price stock).deliver email addr qty =
      Except.ok (Book.PaperBook isbn title author year price (wrapInt (stock - qty)),
        "Quantum book store: Shipped '" ++ title ++ "' to " ++ addr) := by
    simp [Book.deliver, Int.not_lt.mpr hle]
  have hbuy := Store.buy_of_deliver_ok s isbn qty email addr i _ _ _ hfind havail hdel
  refine ⟨havail, ?_, ?_, ?_, ?_⟩
  · rw [hbuy]
    rfl
  · intro hfin hnn hrange
    have hr : qty.natAbs < 2 ^ 53 := by
      unfold inIntRange at hrange
      omega
    exact Double.isNonpos_mul_ofInt price qty hfin hnn hq hr
  · intro neg m e hprice hlo hhi hrange hm
    rw [hprice]
    exact Double.value_mul_ofInt_map neg m e qty hrange hlo hhi hm
  · intro hfit
    have hbooks : (s.buy isbn qty email addr).store.books =
        s.books.set i (Book.PaperBook isbn title author year price (stock - qty)) := by
      rw [hbuy, wrapInt_eq_self (stock - qty) ⟨by omega, hfit⟩]
    refine ⟨i, hget, hbooks, ?_, ?_⟩
    · intro h0
      have hsame : stock - qty = stock := by omega
      refine ⟨hsame, ?_⟩
      rw [hbooks, hsame]
      exact Store.set_same s.books i _ hget
    · intro hneg
      omega

/-- Witness of C18: the quantity -2 asked of the paper book "111" of the test's
catalog: the call returns -90 and the stock goes from 3 to 5. -/
theorem nonpositive_quantity_buy_witness :
    testStore.UniqueISBN ∧
    Book.PaperBook "111" "Effective C++" "Scott Meyers" 2018 45 3 ∈ testStore.books ∧
    (0 : Int) ≤ 3 ∧ (-2 : Int) ≤ 0 ∧ (3 : Int) - (-2) ≤ 2147483647 ∧
    (testStore.buy "111" (-2) "customer@gmail.com" "221B Baker Street").result =
      Except.ok (45 * Double.ofInt (-2)) ∧
    (45 * Double.ofInt (-2) : Double) = -90 ∧
    (45 * Double.ofInt (-2) : Double).isNonpos = true ∧
    (45 * Double.ofInt (-2) : Double).value =
      (45 : Double).value.map (fun v => v * ((-2 : Int) : ℚ)) ∧
    ∃ i, testStore.books[i]? =
        some (Book.PaperBook "111" "Effective C++" "Scott Meyers" 2018 45 3) ∧
      (testStore.buy "111" (-2) "customer@gmail.com" "221B Baker Street").store.books =
        testStore.books.set i
          (Book.PaperBook "111" "Effective C++" "Scott Meyers" 2018 45 (3 - (-2))) :=
  have h := nonpositive_quantity_buy testStore "111" "Effective C++" "Scott Meyers" 2018 45 3
    (-2) "customer@gmail.com" "221B Baker Street" (by decide) (by decide) (by decide)
    (by decide)
  ⟨by decide, by decide, by decide, by decide, by decide, h.2.1, by decide,
    h.2.2.1 (by decide) (by decide) (by decide),
    h.2.2.2.1 false 45 0 (by decide) (by decide) (by decide) (by decide) (by decide),
    (h.2.2.2.2 (by decide)).elim fun i hi => ⟨i, hi.1, hi.2.1⟩⟩

/-- Counterexample to C19 as stated: the e-book "222" of price 0.1 added to the
empty store and then bought three times over: the purchase returns
`1351079888211149 * 2^(-52)`, which is not the exact product of the price and
3. -/
theorem add_then_buy_rounded :
    (∀ x ∈ Store.empty.books, x.getISBN ≠
      (Book.EBook "222" "Deep Learning" "Ian Goodfellow" 2016 Double.oneTenth "epub").getISBN) ∧
    (Store.empty.add
      (Book.EBook "222" "Deep Learning" "Ian Goodfellow" 2016 Double.oneTenth "epub")).result =
      Except.ok () ∧
    ((Store.empty.add
      (Book.EBook "222" "Deep Learning" "Ian Goodfellow" 2016 Double.oneTenth "epub")).store.buy
      "222" 3 "reader@mail.com" "").result =
      Except.ok (Double.finite false 1351079888211149 (-52)) ∧
    (Double.finite false 1351079888211149 (-52)).value ≠
      (Book.EBook "222" "Deep Learning" "Ian Goodfellow" 2016 Double.oneTenth
        "epub").getPrice.value.map (fun v => v * ((3 : Int) : ℚ)) := by
  refine ⟨by decide, rfl, rfl, ?_⟩
  simp only [Book.getPrice, Double.oneTenth, Double.value, Option.map_some']
  norm_num

/-- C19, amended: `add` followed by `buy` resolves to the added book and
disturbs no other ISBN: when no book of `c` has the ISBN of `b`, `add(b)`
returns, and in the store it leaves, `buy` under the ISBN of `b` returns
exactly when `b.available(qty)` and then returns the `double` product of the
price of `b` and `qty`, the exact product rounded to the nearest double (and
the exact product when nothing is rounded away); and `buy` under any other
ISBN throws the same message or returns the same total and writes the same
lines as in `c`, and leaves the books that `buy` leaves in `c`, followed by
`b`. -/
theorem add_then_buy (c : Store) (b : Book) (qty : Int) (email addr : String)
    (hfresh : ∀ x ∈ c.books, x.getISBN ≠ b.getISBN) :
    (c.add b).result = Except.ok () ∧
    ((∃ total, ((c.add b).store.buy b.getISBN qty email addr).result = Except.ok total) ↔
      b.available qty = true) ∧
    (b.available qty = true →
      ((c.add b).store.buy b.getISBN qty email addr).result =
        Except.ok (b.getPrice * Double.ofInt qty)) ∧
    (∀ (neg : Bool) (m : Nat) (e : Int), b.getPrice = Double.finite neg m e →
      -1074 ≤ e → e ≤ 900 → inIntRange qty → m * qty.natAbs < 2 ^ 53 →
      (b.getPrice * Double.ofInt qty).value = b.getPrice.value.map (fun v => v * (qty : ℚ))) ∧
    (∀ isbn : String, isbn ≠ b.getISBN →
      ((c.add b).store.buy isbn qty email addr).result = (c.buy isbn qty email addr).result ∧
      ((c.add b).store.buy isbn qty email addr).out = (c.buy isbn qty email addr).out ∧
      ((c.add b).store.buy isbn qty email addr).store.books =
        (c.buy isbn qty email addr).store.books ++ [b]) := by
  have hscan : Store.hasISBN c.books b.getISBN = false := by
    rw [← Bool.not_eq_true, Store.hasISBN_iff]
    rintro ⟨x, hx, hk⟩
    exact hfresh x hx hk
  have hadd : (c.add b).store = ⟨c.books ++ [b]⟩ := by simp [Store.add, hscan]
  have hnone : Store.find c.books b.getISBN = none :=
    (Store.find_eq_none_iff c.books b.getISBN).mpr hfresh
  have hfind : Store.find (Store.mk (c.books ++ [b])).books b.getISBN =
      some (c.books.length, b) := by
    rw [Store.find_append_singleton_of_none c.books b b.getISBN hnone]
    simp
  have hok : b.available qty = true →
      ((c.add b).store.buy b.getISBN qty email addr).result =
        Except.ok (b.getPrice * Double.ofInt qty) := by
    intro havail
    obtain ⟨r, hdel⟩ := (Book.deliver_ok_iff_available b email addr qty).mpr havail
    obtain ⟨b', line⟩ := r
    rw [hadd, Store.buy_of_deliver_ok _ b.getISBN qty email addr _ b b' line hfind havail hdel,
      Book.deliver_getPrice b b' email addr line qty hdel]
  refine ⟨by simp [Store.add, hscan], ?_, hok, ?_, ?_⟩
  · constructor
    · rintro ⟨total, ht⟩
      by_contra hna
      have hfalse : b.available qty = false := by simpa using hna
      rw [hadd, Store.buy_of_not_available _ b.getISBN qty email addr _ b hfind hfalse] at ht
      cases ht
    · intro havail
      exact ⟨_, hok havail⟩
  · intro neg m e hprice hlo hhi hrange hm
    rw [hprice]
    exact Double.value_mul_ofInt_map neg m e qty hrange hlo hhi hm
  · intro isbn hne
    rw [hadd]
    rcases Store.buy_cases c isbn qty email addr with ⟨hf, hb⟩ | ⟨i, found, hf, hna, hb⟩ |
        ⟨i, found, found', line, hf, hav, hdel, hb⟩
    · have hf' : Store.find (Store.mk (c.books ++ [b])).books isbn = none := by
        rw [Store.find_append_singleton_of_none c.books b isbn hf]
        simp [Ne.symm hne]
      rw [hb, Store.buy_of_find_none _ isbn qty email addr hf']
      exact ⟨rfl, rfl, rfl⟩
    · have hf' : Store.find (Store.mk (c.books ++ [b])).books isbn = some (i, found) :=
        Store.find_append_of_some c.books [b] isbn i found hf
      rw [hb, Store.buy_of_not_available _ isbn qty email addr i found hf' hna]
      exact ⟨rfl, rfl, rfl⟩
    · have hf' : Store.find (Store.mk (c.books ++ [b])).books isbn = some (i, found) :=
        Store.find_append_of_some c.books [b] isbn i found hf
      have hi : i < c.books.length :=
        (List.getElem?_eq_some_iff.mp (Store.find_some_spec c.books isbn i found hf).1).1
      rw [hb, Store.buy_of_deliver_ok _ isbn qty email addr i found found' line hf' hav hdel]
      exact ⟨rfl, rfl, List.set_append_left i found' hi⟩

/-- Witness of C19: the e-book "222" at 35 added to the store holding the paper
book "111"; two copies of the e-book are then bought for 70, the exact
product, and buying "111" goes as before. -/
theorem add_then_buy_witness :
    (∀ x ∈ (Store.mk [Book.PaperBook "111" "Effective C++" "Scott Meyers" 2018 45 3]).books,
      x.getISBN ≠ (Book.EBook "222" "Deep Learning" "Ian Goodfellow" 2016 35 "epub").getISBN) ∧
    (((Store.mk [Book.PaperBook "111" "Effective C++" "Scott Meyers" 2018 45 3]).add
        (Book.EBook "222" "Deep Learning" "Ian Goodfellow" 2016 35 "epub")).store.buy
        (Book.EBook "222" "Deep Learning" "Ian Goodfellow" 2016 35 "epub").getISBN 2
        "reader@mail.com" "").result =
      Except.ok ((Book.EBook "222" "Deep Learning" "Ian Goodfellow" 2016 35 "epub").getPrice *
        Double.ofInt 2) ∧
    ((Book.EBook "222" "Deep Learning" "Ian Goodfellow" 2016 35 "epub").getPrice *
        Double.ofInt 2 : Double) = 70 ∧
    ((Book.EBook "222" "Deep Learning" "Ian Goodfellow" 2016 35 "epub").getPrice *
        Double.ofInt 2).value =
      (Book.EBook "222" "Deep Learning" "Ian Goodfellow" 2016 35 "epub").getPrice.value.map
        (fun v => v * ((2 : Int) : ℚ)) ∧
    (((Store.mk [Book.PaperBook "111" "Effective C++" "Scott Meyers" 2018 45 3]).add
        (Book.EBook "222" "Deep Learning" "Ian Goodfellow" 2016 35 "epub")).store.buy
        "111" 2 "reader@mail.com" "").result =
      ((Store.mk [Book.PaperBook "111" "Effective C++" "Scott Meyers" 2018 45 3]).buy
        "111" 2 "reader@mail.com" "").result :=
  have hfresh : ∀ x ∈ (Store.mk
      [Book.PaperBook "111" "Effective C++" "Scott Meyers" 2018 45 3]).books,
      x.getISBN ≠ (Book.EBook "222" "Deep Learning" "Ian Goodfellow" 2016 35 "epub").getISBN := by
    decide
  have h := add_then_buy (Store.mk [Book.PaperBook "111" "Effective C++" "Scott Meyers" 2018 45 3])
    (Book.EBook "222" "Deep Learning" "Ian Goodfellow" 2016 35 "epub") 2 "reader@mail.com" ""
    hfresh
  ⟨hfresh, h.2.2.1 (by decide), by decide,
    h.2.2.2.1 false 35 0 (by decide) (by decide) (by decide) (by decide) (by decide),
    (h.2.2.2.2 "111" (by decide)).1⟩

end Bookstore
